import Mathlib

/-!
Verification of the PKCS#11 certificate-issuance and CMS document-signing
subsystem (public/assets/js/certificates.js and public/assets/js/signature.js).
JavaScript strings are modelled as lists of characters; JSON scalar values as
an inductive type; the external OpenSSL/pkcs11-tool processes as oracles whose
stdout/stderr/exit outcomes drive the modelled control flow.
-/

set_option maxRecDepth 4000

/-- JavaScript strings, modelled as lists of characters. -/
abbrev Str := List Char

/-- Whitespace test used by the model of the JavaScript trim method. -/
def isWSB (c : Char) : Bool :=
  c == ' ' || c == '\t' || c == '\n' || c == '\r'

/-- Model of the JavaScript trim method: strip whitespace at both ends. -/
def trimStr (s : Str) : Str :=
  ((s.dropWhile isWSB).reverse.dropWhile isWSB).reverse

/-- Boolean test that the first string begins the second. -/
def startsWithB : Str → Str → Bool
  | [], _ => true
  | _ :: _, [] => false
  | p :: ps, h :: hs => p == h && startsWithB ps hs

/-- Boolean substring test: does the needle occur contiguously in the hay? -/
def subB (n : Str) : Str → Bool
  | [] => startsWithB n []
  | c :: hs => startsWithB n (c :: hs) || subB n hs

/-- The needle occurs contiguously inside the hay. -/
def isSub (n h : Str) : Prop := ∃ s t, s ++ n ++ t = h

/-- Order-preserving removal of duplicates keeping the first occurrence,
the behaviour of inserting into a JavaScript Set and listing it. -/
def firstDedupGo (seen : List Str) : List Str → List Str
  | [] => []
  | x :: xs => if x ∈ seen then firstDedupGo seen xs else x :: firstDedupGo (x :: seen) xs

/-- JavaScript Set-based de-duplication preserving first-occurrence order. -/
def firstDedup (l : List Str) : List Str := firstDedupGo [] l

/-- Lower-case hexadecimal digit, as produced by the JavaScript
number toString method with radix 16. -/
def hexL (n : Nat) : Char := "0123456789abcdef".data.getD (n % 16) '0'

/-- Upper-case hexadecimal digit, as produced by encodeURIComponent. -/
def hexU (n : Nat) : Char := "0123456789ABCDEF".data.getD (n % 16) '0'

/-- Fuelled hexadecimal rendering of a natural number (lower-case digits). -/
def natToHexGo : Nat → Nat → Str
  | 0, _ => []
  | fuel + 1, n => if n < 16 then [hexL n] else natToHexGo fuel (n / 16) ++ [hexL (n % 16)]

/-- Model of the JavaScript number toString method with radix 16. -/
def natToHex (n : Nat) : Str := natToHexGo (n + 1) n

/-- Fuelled decimal rendering of a natural number. -/
def natToDecGo : Nat → Nat → Str
  | 0, _ => []
  | fuel + 1, n =>
    if n < 10 then ["0123456789".data.getD n '0']
    else natToDecGo fuel (n / 10) ++ ["0123456789".data.getD (n % 10) '0']

/-- Decimal rendering of a natural number. -/
def natToDec (n : Nat) : Str := natToDecGo (n + 1) n

/-- Decimal rendering of an integer, the JavaScript String() of a number. -/
def intToStr (n : Int) : Str :=
  if n < 0 then '-' :: natToDec n.natAbs else natToDec n.natAbs

/-- Model of the JavaScript padStart(2, zero) call. -/
def pad2 (s : Str) : Str :=
  if s.length < 2 then List.replicate (2 - s.length) '0' ++ s else s

/-- UTF-8 bytes of a code point (values only matter for percent-encoding). -/
def utf8Bytes (n : Nat) : List Nat :=
  if n < 128 then [n]
  else if n < 2048 then [192 + n / 64, 128 + n % 64]
  else if n < 65536 then [224 + n / 4096, 128 + (n / 64) % 64, 128 + n % 64]
  else [240 + n / 262144, 128 + (n / 4096) % 64, 128 + (n / 64) % 64, 128 + n % 64]

/-- Characters that encodeURIComponent passes through unchanged. -/
def uriUnreservedB (c : Char) : Bool :=
  c.isAlpha || c.isDigit || "-_.!~*()".data.contains c || c.toNat == 39

/-- Model of the JavaScript encodeURIComponent built-in: unreserved
characters pass through, every other character becomes percent-encoded
UTF-8 bytes with upper-case hexadecimal digits. -/
def encodeURIComponent (s : Str) : Str :=
  s.flatMap fun c =>
    if uriUnreservedB c then [c]
    else (utf8Bytes c.toNat).flatMap fun b => ['%', hexU (b / 16), hexU (b % 16)]

/-- Percent-encoding of each character code in hexadecimal, then an
upper-casing of the joined result: encodeAsciiPercent of certificates.js
(lines 53-57) and the ASCII branch of pkcs11KeyUris in signature.js. -/
def encodeAsciiPercent (s : Str) : Str :=
  (s.flatMap fun c => '%' :: pad2 (natToHex c.toNat)).map Char.toUpper

/-- Hexadecimal-character test for the key-identifier regular expression. -/
def hexCharB (c : Char) : Bool :=
  c.isDigit || ('a' ≤ c && c ≤ 'f') || ('A' ≤ c && c ≤ 'F')

/-- The key identifier matches the hex-pair regular expression of the
source: two or more hexadecimal characters, even length overall. -/
def hexOKB (s : Str) : Bool :=
  s.all hexCharB && decide (2 ≤ s.length) && (s.length % 2 == 0)

/-- Model of the replace call turning hex pairs into percent groups. -/
def hexPairsPercent : Str → Str
  | a :: b :: rest => '%' :: a :: b :: hexPairsPercent rest
  | r => r

/-- encodeHexPercentIfValid of certificates.js (lines 58-62): trim, test the
hex-pair regular expression, then percent-group and upper-case, else null. -/
def encodeHexPercentIfValid (s0 : Str) : Option Str :=
  let s := trimStr s0
  if hexOKB s then some ((hexPairsPercent s).map Char.toUpper) else none

/-- getSlotId of certificates.js (lines 161-166): an unset, null or empty
environment value yields the default slot, otherwise the trimmed value is
used only when it is entirely decimal digits. -/
def getSlotId (raw : Option Str) : Str :=
  match raw with
  | none => "0".data
  | some s =>
    if s = [] then "0".data
    else
      let n := trimStr s
      if n ≠ [] && n.all Char.isDigit then n else "0".data

/-- pkcs11KeyUris of signature.js (lines 27-47): hex-byte URI when the id is
valid hex pairs, always an ASCII-percent URI, always an object URI, each with
the pin-value fragment appended whenever a PIN was supplied, deduplicated by
a Set. -/
def pkcs11KeyUris (objectId pin : Str) : List Str :=
  let idStr := trimStr objectId
  let pinFrag : Str :=
    if pin ≠ [] then ";pin-value=".data ++ encodeURIComponent pin else []
  if idStr = [] then []
  else
    firstDedup (
      (if hexOKB idStr then
        ["pkcs11:id=".data ++ (hexPairsPercent idStr).map Char.toUpper
          ++ ";type=private".data ++ pinFrag]
       else [])
      ++ (if encodeAsciiPercent idStr ≠ [] then
            ["pkcs11:id=".data ++ encodeAsciiPercent idStr
              ++ ";type=private".data ++ pinFrag]
          else [])
      ++ ["pkcs11:slot-id=0;object=".data ++ encodeURIComponent idStr
            ++ ";type=private".data ++ pinFrag])

/-- engineKeyUris of certificates.js (lines 175-214): slot, token and bare
attribute strings for the id in hex-pair form, ASCII form and object form,
each emitted both with and without the scheme marker, deduplicated
preserving order.
The PIN is not an input: engine URIs never carry credentials. -/
def engineKeyUris (objectId tokenLbl : Str) (slotRaw : Option Str) : List Str :=
  let idStr := trimStr objectId
  let slotId := getSlotId slotRaw
  if idStr = [] then []
  else
    let tokFrag : Str :=
      if tokenLbl ≠ [] then "token=".data ++ encodeURIComponent tokenLbl ++ [';'] else []
    let slotFrag : Str := "slot-id=".data ++ slotId ++ [';']
    let attr : List Str :=
      (match encodeHexPercentIfValid idStr with
       | some hp =>
         [slotFrag ++ "id=".data ++ hp ++ ";type=private".data]
         ++ (if tokenLbl ≠ [] then
               [slotFrag ++ tokFrag ++ "id=".data ++ hp ++ ";type=private".data] else [])
         ++ (if tokenLbl ≠ [] then
               [tokFrag ++ "id=".data ++ hp ++ ";type=private".data] else [])
       | none => [])
      ++ [slotFrag ++ "id=".data ++ encodeAsciiPercent idStr ++ ";type=private".data]
      ++ (if tokenLbl ≠ [] then
            [slotFrag ++ tokFrag ++ "id=".data ++ encodeAsciiPercent idStr
              ++ ";type=private".data] else [])
      ++ [slotFrag ++ "object=".data ++ encodeURIComponent idStr ++ ";type=private".data]
      ++ (if tokenLbl ≠ [] then
            [slotFrag ++ tokFrag ++ "object=".data ++ encodeURIComponent idStr
              ++ ";type=private".data] else [])
    firstDedup (attr.flatMap fun a => ["pkcs11:".data ++ a, a])

/-- Provider URI with a slot-id attribute ahead of the rest. -/
def provSlotU (slotId rest : Str) : Str :=
  "pkcs11:slot-id=".data ++ slotId ++ (';' :: rest)

/-- Provider URI with a token attribute ahead of the rest. -/
def provTokU (tok rest : Str) : Str :=
  "pkcs11:token=".data ++ tok ++ (';' :: rest)

/-- Provider URI with a module-path attribute ahead of the rest. -/
def provModU (md rest : Str) : Str :=
  "pkcs11:module-path=".data ++ md ++ (';' :: rest)

/-- Trailing attributes: id, type and an embedded pin-value credential. -/
def restIdPin (x pinv : Str) : Str :=
  "id=".data ++ x ++ ";type=private;pin-value=".data ++ pinv

/-- Trailing attributes: id and type without a credential. -/
def restId (x : Str) : Str := "id=".data ++ x ++ ";type=private".data

/-- Trailing attributes: object, type and an embedded pin-value credential. -/
def restObjPin (o pinv : Str) : Str :=
  "object=".data ++ o ++ ";type=private;pin-value=".data ++ pinv

/-- The provUris candidate list of generateHandler in certificates.js
(lines 405-426) for one token-label candidate: six hex-id shapes when the
key id is valid hex pairs (null entries are filtered out otherwise), then
three ASCII-id shapes, then three object shapes. -/
def provUris (keyId pin tokenLbl modPath : Str) (slotRaw : Option Str) : List Str :=
  let slotId := getSlotId slotRaw
  let md := encodeURIComponent modPath
  let pinv := encodeURIComponent pin
  let tok := encodeURIComponent tokenLbl
  let encAscii := encodeAsciiPercent keyId
  let obj := encodeURIComponent keyId
  (match encodeHexPercentIfValid keyId with
   | some encHex =>
     [provSlotU slotId (restIdPin encHex pinv),
      provSlotU slotId (restId encHex),
      provTokU tok (restIdPin encHex pinv),
      provTokU tok (restId encHex),
      provModU md (restIdPin encHex pinv),
      provModU md (restId encHex)]
   | none => [])
  ++ [provSlotU slotId (restIdPin encAscii pinv),
      provTokU tok (restIdPin encAscii pinv),
      provModU md (restIdPin encAscii pinv)]
  ++ [provSlotU slotId (restObjPin obj pinv),
      provTokU tok (restObjPin obj pinv),
      provModU md (restObjPin obj pinv)]

/-- The pin-value attribute marker that RFC7512-strict engine locators must
never contain. -/
def pinNeedle : Str := "pin-value=".data

/-- The engine-mode CSR argument vector of generateHandler (lines 494-502):
the PIN travels out-of-band in the -passin argument, the locator in -key. -/
def engineCsrArgs (pin uri subjDN csrPath : Str) : List Str :=
  ["req".data, "-new".data, "-utf8".data,
   "-engine".data, "pkcs11".data, "-keyform".data, "engine".data,
   "-passin".data, "pass:".data ++ pin,
   "-key".data, uri,
   "-subj".data, subjDN,
   "-out".data, csrPath]

/-- Outcome of reading and JSON-parsing a store file: a parsed value, an
unreadable file, or content that fails to parse. -/
inductive ReadOutcome (α : Type) where
  | ok (a : α)
  | unreadable
  | unparseable

/-- loadJSON of both modules: JSON.parse of the file inside try/catch, with
any read or parse failure silently replaced by the supplied fallback. -/
def loadJSON {α : Type} (r : ReadOutcome α) (fallback : α) : α :=
  match r with
  | .ok a => a
  | .unreadable => fallback
  | .unparseable => fallback

/-- Persisted certificate record, restricted to the fields the verified
properties touch (certificates.js lines 559-583 and 615-618). -/
structure CertRecord where
  id : Str
  keyId : Str
  serial : Str
  status : Str
  revocationDate : Option Str
  revocationReason : Option Str
deriving DecidableEq

/-- The certificate store object: a derived total and the record list. -/
structure CertStore where
  total : Nat
  certificates : List CertRecord
deriving DecidableEq

/-- Persisted signature record, restricted to the fields the verified
properties touch (signature.js lines 296-310). -/
structure SigRecord where
  id : Str
  detached : Bool
  outputName : Str
deriving DecidableEq

/-- The signature store object: a derived total and the item list. -/
structure SignStore where
  total : Nat
  items : List SigRecord
deriving DecidableEq

/-- The fallback store for certificates: total 0, no records. -/
def emptyCertStore : CertStore := ⟨0, []⟩

/-- The fallback store for signatures: total 0, no items. -/
def emptySignStore : SignStore := ⟨0, []⟩

/-- getCertStore of certificates.js (line 24). -/
def getCertStore (r : ReadOutcome CertStore) : CertStore := loadJSON r emptyCertStore

/-- getSignStore of signature.js (line 20). -/
def getSignStore (r : ReadOutcome SignStore) : SignStore := loadJSON r emptySignStore

/-- persistCertStore (certificates.js line 25): set total to the record
count, then write the whole object in a single saveJSON call; the value
below is exactly the object those bytes encode. -/
def persistCertStore (st : CertStore) : CertStore :=
  { st with total := st.certificates.length }

/-- persistSignStore (signature.js lines 21-24): set total to the item
count, then write the whole object in a single saveJSON call. -/
def persistSignStore (st : SignStore) : SignStore :=
  { st with total := st.items.length }

/-- The store write of a successful sign (signature.js lines 312-314):
load, unshift the new record, persist. -/
def appendSignRecord (r : ReadOutcome SignStore) (rec : SigRecord) : SignStore :=
  let sigStore := getSignStore r
  persistSignStore { sigStore with items := rec :: sigStore.items }

/-- The store write of a successful issuance (certificates.js 585-587):
load, unshift the new record, persist. -/
def appendCertRecord (r : ReadOutcome CertStore) (rec : CertRecord) : CertStore :=
  let store := getCertStore r
  persistCertStore { store with certificates := rec :: store.certificates }

/-- The revocation reason (certificates.js line 611): the caller-supplied
value, with any falsy value replaced by the default. -/
def bodyReason (r : Option Str) : Str :=
  match r with
  | some s => if s ≠ [] then s else "unspecified".data
  | none => "unspecified".data

/-- The findIndex plus in-place mutation of the revoke route (lines
612-618): locate the first record with the requested id and stamp it
revoked; none when the id is absent. -/
def revokeIn (certs : List CertRecord) (id now reason : Str) :
    Option (List CertRecord × CertRecord) :=
  match certs with
  | [] => none
  | c :: rest =>
    if c.id = id then
      let c2 := { c with status := "revoked".data,
                         revocationDate := some now,
                         revocationReason := some reason }
      some (c2 :: rest, c2)
    else
      match revokeIn rest id now reason with
      | none => none
      | some (rest2, r) => some (c :: rest2, r)

/-- The revoke route of certificates.js (lines 607-628): on a missing id
respond 404 leaving the store untouched, otherwise mutate the record and
persist the whole store. -/
def revokeCert (st : CertStore) (id now : Str) (reason : Option Str) :
    Option (CertStore × CertRecord) :=
  match revokeIn st.certificates id now (bodyReason reason) with
  | none => none
  | some (certs2, r) => some (persistCertStore { st with certificates := certs2 }, r)

/-- Character class of the serial capture group: hexadecimal digits of
either case and the colon, per the case-insensitive regular expression. -/
def serialCharB (c : Char) : Bool :=
  c.isDigit || ('A' ≤ c && c ≤ 'F') || ('a' ≤ c && c ≤ 'f') || c == ':'

/-- Case-insensitive test that the first string begins the second. -/
def ciPre : Str → Str → Bool
  | [], _ => true
  | _ :: _, [] => false
  | p :: ps, h :: hs => (p.toLower == h.toLower) && ciPre ps hs

/-- First match of the serial capture: scan for the serial marker
case-insensitively and take the following run of serial characters,
requiring at least one, as the regular expression in readCertMeta does. -/
def serialCapture : Str → Option Str
  | [] => none
  | c :: cs =>
    if ciPre "serial=".data (c :: cs) then
      let cap := ((c :: cs).drop 7).takeWhile serialCharB
      if cap = [] then serialCapture cs else some cap
    else serialCapture cs

/-- The serial field of readCertMeta (certificates.js lines 99-100, 112):
trim the captured group, strip colons, upper-case, and null out an empty
result. -/
def metaSerial (txt : Str) : Option Str :=
  let serialRaw := trimStr ((serialCapture txt).getD [])
  let serial := (serialRaw.filter (fun c => c ≠ ':')).map Char.toUpper
  if serial = [] then none else some serial

/-- The serial stored in the certificate record (line 564): the parsed
serial when present, otherwise the randomly generated fallback. -/
def recordSerial (m : Option Str) (rand : Str) : Str :=
  match m with
  | some s => s
  | none => rand

/-- JSON-scalar request-body values as the route handlers see them. -/
inductive JSVal where
  | undef
  | null
  | bool (b : Bool)
  | num (n : Int)
  | str (s : Str)
deriving DecidableEq

/-- JavaScript truthiness on scalar values. -/
def truthy : JSVal → Bool
  | .undef => false
  | .null => false
  | .bool b => b
  | .num n => n != 0
  | .str s => s ≠ []

/-- The JavaScript logical-or on scalar values. -/
def jsOr (a b : JSVal) : JSVal := if truthy a then a else b

/-- Result of the JavaScript Number conversion, restricted to the integer
values relevant here. -/
inductive JSNum where
  | nan
  | int (n : Int)
deriving DecidableEq

/-- Decimal-integer parse of a trimmed string: optional sign then digits.
Number() also accepts fractional and exponent notation that this model
omits; every input used in the theorems below is an integer literal. -/
def parseIntStr (s : Str) : JSNum :=
  match s with
  | '-' :: ds => if ds ≠ [] && ds.all Char.isDigit then .int (-(Int.ofNat (Nat.ofDigits 10 ((ds.map fun c => c.toNat - 48).reverse)))) else .nan
  | '+' :: ds => if ds ≠ [] && ds.all Char.isDigit then .int (Int.ofNat (Nat.ofDigits 10 ((ds.map fun c => c.toNat - 48).reverse))) else .nan
  | ds => if ds ≠ [] && ds.all Char.isDigit then .int (Int.ofNat (Nat.ofDigits 10 ((ds.map fun c => c.toNat - 48).reverse))) else .nan

/-- The JavaScript Number conversion on scalar values. -/
def toNumber : JSVal → JSNum
  | .undef => .nan
  | .null => .int 0
  | .bool b => .int (if b then 1 else 0)
  | .num n => .int n
  | .str s => let t := trimStr s; if t = [] then .int 0 else parseIntStr t

/-- The validity period of generateHandler (line 335):
Number(body.validityDays or 365). -/
def validityDaysOf (v : JSVal) : JSNum := toNumber (jsOr v (.num 365))

/-- The JavaScript String() conversion on scalar values. -/
def jsToStr : JSVal → Str
  | .undef => "undefined".data
  | .null => "null".data
  | .bool b => if b then "true".data else "false".data
  | .num n => intToStr n
  | .str s => s

/-- Lower-casing of a string, character by character. -/
def lowerStr (s : Str) : Str := s.map Char.toLower

/-- isTrue of signature.js (line 17, renamed here to avoid a clash with
Decidable.isTrue): strict equality with boolean true, or the lower-cased
String() rendering equal to the four-letter word. -/
def isTrueJS (v : JSVal) : Bool :=
  decide (v = .bool true) || (lowerStr (jsToStr v) = "true".data)

/-- The detached flag of the sign route (line 215): an absent body value
defaults to true, any present value goes through isTrue. -/
def detachedOf (v : JSVal) : Bool :=
  match v with
  | .undef => true
  | v => isTrueJS v

/-- The output artifact name of the sign route (line 230). -/
def outputNameOf (detached : Bool) (base : Str) : Str :=
  base ++ (if detached then ".p7s".data else ".p7m".data)

/-- The transient files of one certificate-issuance call: the CSR, the
certificate PEM and DER scratch, and the extension-config file. -/
inductive TFile where
  | csr
  | pem
  | der
  | ext
deriving DecidableEq

/-- The cleanup array of generateHandler, in push order (lines 352, 355). -/
def cleanupList : List TFile := [.csr, .pem, .der, .ext]

/-- External-process outcomes driving one generateHandler run: preflight
results, the per-URI CSR attempt outcomes, and the later tool outcomes. -/
structure IssueOracle where
  moduleOk : Bool
  keyId : Str
  pin : Str
  forceEngine : Bool
  provPreflightOk : Bool
  provCsrAttempts : List Bool
  provX509Ok : Bool
  provConvOk : Bool
  engAvail : Bool
  engCsrAttempts : List Bool
  engX509Ok : Bool
  engConvOk : Bool
  metaOk : Bool

/-- How one generateHandler call returned. -/
inductive IssueExit where
  | badModule
  | badKey
  | badPin
  | ok
  | threw
deriving DecidableEq

/-- Result of one modelled generateHandler call: the exit kind and which
transient files are still on disk when the response goes out. -/
structure IssueResult where
  exit : IssueExit
  remaining : List TFile
deriving DecidableEq

/-- The catch-block cleanup (line 594): unlink every file in the cleanup
array, leaving only created files outside it. -/
def removeCleanup (created : List TFile) : List TFile :=
  created.filter fun f => !(cleanupList.contains f)

/-- The success tail of generateHandler (lines 529-591): the signer PEM is
persisted, the token import attempted, then readCertMeta runs and a failed
metadata parse throws into the catch block; a success responds without any
unlink, keeping every created transient file. -/
def finishIssue (o : IssueOracle) (created : List TFile) : IssueResult :=
  if !o.metaOk then ⟨.threw, removeCleanup created⟩ else ⟨.ok, created⟩

/-- Control flow of generateHandler (certificates.js lines 328-600) as far
as transient files are concerned. Validation failures return before any
file exists. The extension-config file is written first. A provider run
needs the preflight plus one CSR attempt to succeed; its x509 or DER
failures throw. Otherwise the engine fallback runs, throwing when the
engine, every CSR attempt, the x509 step or the DER step fails. Only the
catch block deletes files. -/
def runIssue (o : IssueOracle) : IssueResult :=
  if !o.moduleOk then ⟨.badModule, []⟩
  else if trimStr o.keyId = [] then ⟨.badKey, []⟩
  else if o.pin = [] then ⟨.badPin, []⟩
  else
    let provTried := !o.forceEngine && o.provPreflightOk
    if provTried && o.provCsrAttempts.any id then
      if !o.provX509Ok then ⟨.threw, removeCleanup [.ext, .csr]⟩
      else if !o.provConvOk then ⟨.threw, removeCleanup [.ext, .csr, .pem]⟩
      else finishIssue o [.ext, .csr, .pem, .der]
    else
      if !o.engAvail then ⟨.threw, removeCleanup [.ext]⟩
      else if !(o.engCsrAttempts.any id) then ⟨.threw, removeCleanup [.ext]⟩
      else if !o.engX509Ok then ⟨.threw, removeCleanup [.ext, .csr]⟩
      else if !o.engConvOk then ⟨.threw, removeCleanup [.ext, .csr, .pem]⟩
      else finishIssue o [.ext, .csr, .pem, .der]

/-- The provider-failure diagnostic of the sign route (signature.js line
261): a fixed prefix followed by the raw stderr, else stdout, of the last
tool invocation. -/
def providerSignErrMsg (stderr stdout : Str) : Str :=
  "OpenSSL cms sign failed (provider): ".data
    ++ (if stderr ≠ [] then stderr else if stdout ≠ [] then stdout else "error".data)

/-- The provider-CSR diagnostic of generateHandler (certificates.js line
446): a fixed prefix followed by the trimmed raw stderr-else-stdout of the
last CSR attempt. -/
def providerCsrErrMsg (stderr stdout : Str) : Str :=
  "Provider CSR failed. ".data ++ trimStr (if stderr ≠ [] then stderr else stdout)

/-- The log line of a failed sign operation (signature.js line 322). -/
def signErrLogLine (msg : Str) : Str := "documents.sign error: ".data ++ msg

/-- Character of a string at an index, with a space as default. -/
def chAt (k : Nat) (s : Str) : Char := s.getD k ' '

theorem startsWithB_iff (n h : Str) : startsWithB n h = true ↔ ∃ t, n ++ t = h := by
  induction n generalizing h with
  | nil => simp [startsWithB]
  | cons p ps ih =>
    cases h with
    | nil => simp [startsWithB]
    | cons c hs =>
      simp only [startsWithB, Bool.and_eq_true, beq_iff_eq, ih, List.cons_append,
        List.cons_eq_cons]
      tauto

theorem subB_iff (n h : Str) : subB n h = true ↔ isSub n h := by
  induction h with
  | nil =>
    cases n with
    | nil =>
      simp only [subB, startsWithB, true_iff, isSub]
      exact ⟨[], [], rfl⟩
    | cons c cs =>
      simp only [subB, startsWithB, isSub]
      constructor
      · intro hf
        exact absurd hf (by simp)
      · rintro ⟨s, t, hst⟩
        exact absurd hst (by simp)
  | cons c hs ih =>
    rw [subB, Bool.or_eq_true, startsWithB_iff, ih]
    constructor
    · rintro (⟨t, ht⟩ | ⟨s, t, hst⟩)
      · exact ⟨[], t, by simpa using ht⟩
      · exact ⟨c :: s, t, by simp [hst]⟩
    · rintro ⟨s, t, hst⟩
      cases s with
      | nil => exact Or.inl ⟨t, by simpa using hst⟩
      | cons x s2 =>
        simp only [List.cons_append, List.cons_eq_cons] at hst
        exact Or.inr ⟨s2, t, hst.2⟩

theorem not_isSub_of_subB (n h : Str) (he : subB n h = false) : ¬ isSub n h := by
  intro hs
  rw [← subB_iff] at hs
  simp [he] at hs

theorem isSub_length_le (n h : Str) (hs : isSub n h) : n.length ≤ h.length := by
  obtain ⟨s, t, rfl⟩ := hs
  simp
  omega

theorem isSub_cons (n a : Str) (c : Char) (h : isSub n a) : isSub n (c :: a) := by
  obtain ⟨s, t, rfl⟩ := h
  exact ⟨c :: s, t, rfl⟩

theorem isSub_append_left (n h a : Str) (hs : isSub n h) : isSub n (a ++ h) := by
  obtain ⟨s, t, rfl⟩ := hs
  exact ⟨a ++ s, t, by simp⟩

theorem isSub_append_right (n h b : Str) (hs : isSub n h) : isSub n (h ++ b) := by
  obtain ⟨s, t, rfl⟩ := hs
  exact ⟨s, t ++ b, by simp⟩

theorem mem_of_isSub (n h : Str) (c : Char) (hc : c ∈ n) (hs : isSub n h) : c ∈ h := by
  obtain ⟨s, t, rfl⟩ := hs
  simp [hc]

theorem isSub_pre (n t a b : Str) (c : Char) (hc : c ∉ n) (h : n ++ t = a ++ c :: b) :
    ∃ r, a = n ++ r := by
  induction n generalizing a with
  | nil => exact ⟨a, rfl⟩
  | cons y n2 ih =>
    cases a with
    | nil =>
      simp only [List.cons_append, List.nil_append, List.cons_eq_cons] at h
      exact absurd (h.1 ▸ List.mem_cons_self y n2) hc
    | cons z a2 =>
      simp only [List.cons_append, List.cons_eq_cons] at h
      obtain ⟨r, ha⟩ := ih a2 (fun hm => hc (List.mem_cons_of_mem y hm)) h.2
      exact ⟨r, by simp [h.1, ha]⟩

theorem isSub_split_sep (n a b : Str) (c : Char) (hc : c ∉ n)
    (h : isSub n (a ++ c :: b)) : isSub n a ∨ isSub n b := by
  obtain ⟨s, t, hst⟩ := h
  induction s generalizing a with
  | nil =>
    simp only [List.nil_append] at hst
    obtain ⟨r, ha⟩ := isSub_pre n t a b c hc hst
    exact Or.inl ⟨[], r, by simp [ha]⟩
  | cons x s2 ih =>
    cases a with
    | nil =>
      simp only [List.cons_append, List.nil_append, List.cons_eq_cons] at hst
      exact Or.inr ⟨s2, t, hst.2⟩
    | cons z a2 =>
      simp only [List.cons_append, List.cons_eq_cons] at hst
      rcases ih a2 hst.2 with hl | hr
      · exact Or.inl (isSub_cons n a2 z hl)
      · exact Or.inr hr

theorem isSub_pre_last (m t p v : Str) (c : Char) (hcv : c ∉ v)
    (h : (m ++ [c]) ++ t = p ++ v) : ∃ r, p = (m ++ [c]) ++ r := by
  induction m generalizing p with
  | nil =>
    cases p with
    | nil =>
      simp only [List.nil_append] at h
      exact absurd (h ▸ List.mem_cons_self c t) hcv
    | cons z p2 =>
      simp only [List.nil_append, List.cons_append, List.cons_eq_cons] at h
      exact ⟨p2, by simp [h.1]⟩
  | cons y m2 ih =>
    cases p with
    | nil =>
      simp only [List.nil_append] at h
      have : c ∈ v := by
        rw [← h]
        simp
      exact absurd this hcv
    | cons z p2 =>
      simp only [List.cons_append, List.cons_eq_cons] at h
      obtain ⟨r, hp⟩ := ih p2 h.2
      exact ⟨r, by simp [h.1, hp]⟩

theorem isSub_last_sep (m p v : Str) (c : Char) (hcv : c ∉ v)
    (h : isSub (m ++ [c]) (p ++ v)) : isSub (m ++ [c]) p := by
  obtain ⟨s, t, hst⟩ := h
  induction s generalizing p with
  | nil =>
    simp only [List.nil_append] at hst
    obtain ⟨r, hp⟩ := isSub_pre_last m t p v c hcv hst
    exact ⟨[], r, by simp [hp]⟩
  | cons x s2 ih =>
    cases p with
    | nil =>
      simp only [List.nil_append] at hst
      have : c ∈ v := by
        rw [← hst]
        simp
      exact absurd this hcv
    | cons z p2 =>
      simp only [List.cons_append, List.cons_eq_cons] at hst
      exact isSub_cons (m ++ [c]) p2 z (ih p2 hst.2)

theorem charOfNat_toNat (n : Nat) (hv : n.isValidChar) : (Char.ofNat n).toNat = n := by
  rw [Char.ofNat, dif_pos hv]
  rfl

theorem toUpper_preimage (c d : Char) (h : c.toUpper = d) :
    c = d ∨ (97 ≤ c.toNat ∧ c.toNat ≤ 122 ∧ d.toNat = c.toNat - 32) := by
  by_cases hc : c.toNat ≥ 97 ∧ c.toNat ≤ 122
  · right
    have hd : d = Char.ofNat (c.toNat - 32) := by
      rw [← h]
      simp only [Char.toUpper, if_pos hc]
    refine ⟨hc.1, hc.2, ?_⟩
    rw [hd, charOfNat_toNat _ (Or.inl (by omega))]
  · left
    rw [← h]
    simp only [Char.toUpper, if_neg hc]

theorem toLower_preimage (c d : Char) (h : c.toLower = d) :
    c = d ∨ (65 ≤ c.toNat ∧ c.toNat ≤ 90 ∧ d.toNat = c.toNat + 32) := by
  by_cases hc : c.toNat ≥ 65 ∧ c.toNat ≤ 90
  · right
    have hd : d = Char.ofNat (c.toNat + 32) := by
      rw [← h]
      simp only [Char.toLower, if_pos hc]
    refine ⟨hc.1, hc.2, ?_⟩
    rw [hd, charOfNat_toNat _ (Or.inl (by omega))]
  · left
    rw [← h]
    simp only [Char.toLower, if_neg hc]

theorem eq_not_mem_map_toUpper (l : Str) (hl : '=' ∉ l) : '=' ∉ l.map Char.toUpper := by
  intro h
  obtain ⟨c, hc, hcu⟩ := List.mem_map.1 h
  rcases toUpper_preimage c '=' hcu with rfl | ⟨h1, h2, h3⟩
  · exact hl hc
  · have h4 : ('=').toNat = 61 := rfl
    omega

theorem hexU_mem (n : Nat) : hexU n ∈ "0123456789ABCDEF".data := by
  unfold hexU
  have h : n % 16 < ("0123456789ABCDEF".data).length := Nat.mod_lt _ (by decide)
  rw [List.getD_eq_getElem _ _ h]
  exact List.getElem_mem h

theorem hexL_mem (n : Nat) : hexL n ∈ "0123456789abcdef".data := by
  unfold hexL
  have h : n % 16 < ("0123456789abcdef".data).length := Nat.mod_lt _ (by decide)
  rw [List.getD_eq_getElem _ _ h]
  exact List.getElem_mem h

theorem mem_natToHexGo (fuel : Nat) : ∀ (n : Nat) (c : Char),
    c ∈ natToHexGo fuel n → c ∈ "0123456789abcdef".data := by
  induction fuel with
  | zero => intro n c h; simp [natToHexGo] at h
  | succ f ih =>
    intro n c h
    rw [natToHexGo] at h
    by_cases hn : n < 16
    · rw [if_pos hn] at h
      simp only [List.mem_singleton] at h
      exact h ▸ hexL_mem n
    · rw [if_neg hn] at h
      rcases List.mem_append.1 h with h1 | h2
      · exact ih _ c h1
      · simp only [List.mem_singleton] at h2
        exact h2 ▸ hexL_mem (n % 16)

theorem mem_pad2 (s : Str) (c : Char) (h : c ∈ pad2 s) : c = '0' ∨ c ∈ s := by
  unfold pad2 at h
  by_cases hl : s.length < 2
  · rw [if_pos hl] at h
    rcases List.mem_append.1 h with h1 | h2
    · exact Or.inl (List.eq_of_mem_replicate h1)
    · exact Or.inr h2
  · rw [if_neg hl] at h
    exact Or.inr h

theorem mem_hexPairsPercent : ∀ (s : Str) (c : Char),
    c ∈ hexPairsPercent s → c = '%' ∨ c ∈ s
  | [], c => by simp [hexPairsPercent]
  | [a], c => by
    simp only [hexPairsPercent, List.mem_singleton]
    intro h
    exact Or.inr (by simp [h])
  | a :: b :: rest, c => by
    simp only [hexPairsPercent, List.mem_cons]
    rintro (rfl | rfl | rfl | h)
    · exact Or.inl rfl
    · right; simp
    · right; simp
    · rcases mem_hexPairsPercent rest c h with h1 | h2
      · exact Or.inl h1
      · right
        simp [h2]

theorem eq_not_mem_encodeURIComponent (s : Str) : '=' ∉ encodeURIComponent s := by
  intro h
  unfold encodeURIComponent at h
  obtain ⟨c, _, hmem⟩ := List.mem_flatMap.1 h
  by_cases hu : uriUnreservedB c = true
  · rw [if_pos hu] at hmem
    simp only [List.mem_singleton] at hmem
    rw [← hmem] at hu
    exact absurd hu (by decide)
  · rw [if_neg hu] at hmem
    obtain ⟨b, _, hb⟩ := List.mem_flatMap.1 hmem
    simp only [List.mem_cons, List.not_mem_nil, or_false] at hb
    rcases hb with h1 | h1 | h1
    · exact absurd h1 (by decide)
    · exact absurd (h1 ▸ hexU_mem (b / 16)) (by decide)
    · exact absurd (h1 ▸ hexU_mem (b % 16)) (by decide)

theorem eq_not_mem_hexPerc (s : Str) (hs : s.all hexCharB = true) :
    '=' ∉ (hexPairsPercent s).map Char.toUpper := by
  apply eq_not_mem_map_toUpper
  intro h
  rcases mem_hexPairsPercent s '=' h with h1 | h2
  · exact absurd h1 (by decide)
  · have := List.all_eq_true.1 hs _ h2
    exact absurd this (by decide)

theorem eq_not_mem_encodeAsciiPercent (s : Str) : '=' ∉ encodeAsciiPercent s := by
  apply eq_not_mem_map_toUpper
  intro h
  obtain ⟨c, _, hmem⟩ := List.mem_flatMap.1 h
  simp only [List.mem_cons] at hmem
  rcases hmem with h1 | h1
  · exact absurd h1 (by decide)
  · rcases mem_pad2 _ _ h1 with h2 | h2
    · exact absurd h2 (by decide)
    · exact absurd (mem_natToHexGo _ _ _ h2) (by decide)

theorem eq_not_mem_getSlotId (r : Option Str) : '=' ∉ getSlotId r := by
  intro h
  match r with
  | none => exact absurd h (by decide)
  | some s =>
    simp only [getSlotId] at h
    by_cases he : s = []
    · rw [if_pos he] at h
      exact absurd h (by decide)
    · rw [if_neg he] at h
      by_cases hd : (decide (trimStr s ≠ []) && (trimStr s).all Char.isDigit) = true
      · rw [if_pos hd] at h
        have := List.all_eq_true.1 (Bool.and_elim_right hd) _ h
        exact absurd this (by decide)
      · rw [if_neg hd] at h
        exact absurd h (by decide)

theorem pinNeedle_eq : pinNeedle = "pin-value".data ++ ['='] := rfl

theorem noPin_short (p : Str) (hp : p.length < 10) : ¬ isSub pinNeedle p := by
  intro h
  have h2 := isSub_length_le _ _ h
  have h3 : pinNeedle.length = 10 := rfl
  omega

theorem noPin_seg (p x rest : Str) (hp : p.length < 10) (hx : '=' ∉ x)
    (hrest : ¬ isSub pinNeedle rest) : ¬ isSub pinNeedle (p ++ x ++ (';' :: rest)) := by
  intro h
  rcases isSub_split_sep pinNeedle (p ++ x) rest ';' (by decide) h with h3 | h4
  · rw [pinNeedle_eq] at h3
    have h5 := isSub_last_sep "pin-value".data p x '=' hx h3
    rw [← pinNeedle_eq] at h5
    exact noPin_short p hp h5
  · exact hrest h4

theorem noPin_typePrivate : ¬ isSub pinNeedle "type=private".data :=
  not_isSub_of_subB _ _ (by decide)

theorem noPin_tail (p2 x : Str) (h2 : p2.length < 10) (hx : '=' ∉ x) :
    ¬ isSub pinNeedle (p2 ++ x ++ ";type=private".data) :=
  noPin_seg p2 x "type=private".data h2 hx noPin_typePrivate

theorem noPin_scheme (a : Str) (ha : ¬ isSub pinNeedle a) :
    ¬ isSub pinNeedle ("pkcs11:".data ++ a) := by
  intro h
  have h2 : isSub pinNeedle ("pkcs11".data ++ (':' :: a)) := h
  rcases isSub_split_sep pinNeedle "pkcs11".data a ':' (by decide) h2 with h3 | h4
  · exact noPin_short _ (by decide) h3
  · exact ha h4

theorem noPin_congr (t u : Str) (he : t = u) (h : ¬ isSub pinNeedle u) :
    ¬ isSub pinNeedle t := he ▸ h

theorem mem_firstDedupGo (l : List Str) : ∀ (seen : List Str) (x : Str),
    x ∈ firstDedupGo seen l → x ∈ l := by
  induction l with
  | nil => intro seen x h; simp [firstDedupGo] at h
  | cons y ys ih =>
    intro seen x h
    rw [firstDedupGo] at h
    by_cases hy : y ∈ seen
    · rw [if_pos hy] at h
      exact List.mem_cons_of_mem y (ih seen x h)
    · rw [if_neg hy] at h
      rcases List.mem_cons.1 h with h1 | h2
      · exact h1 ▸ List.mem_cons_self x ys
      · exact List.mem_cons_of_mem y (ih _ x h2)

theorem mem_firstDedup (l : List Str) (x : Str) (h : x ∈ firstDedup l) : x ∈ l :=
  mem_firstDedupGo l [] x h

theorem hexOK_of_encodeHex (s0 hp : Str) (h : encodeHexPercentIfValid s0 = some hp) :
    hexOKB (trimStr s0) = true ∧ hp = (hexPairsPercent (trimStr s0)).map Char.toUpper := by
  unfold encodeHexPercentIfValid at h
  by_cases hok : hexOKB (trimStr s0) = true
  · rw [if_pos hok] at h
    exact ⟨hok, (Option.some_inj.1 h).symm⟩
  · rw [if_neg hok] at h
    exact absurd h (by simp)

theorem engineKeyUris_noPin (objectId tokenLbl : Str) (slotRaw : Option Str) (uri : Str)
    (hm : uri ∈ engineKeyUris objectId tokenLbl slotRaw) : ¬ isSub pinNeedle uri := by
  unfold engineKeyUris at hm
  by_cases hid : trimStr objectId = []
  · rw [if_pos hid] at hm
    simp at hm
  · rw [if_neg hid] at hm
    simp only at hm
    obtain ⟨a, ha, hu⟩ := List.mem_flatMap.1 (mem_firstDedup _ _ hm)
    have hS : '=' ∉ getSlotId slotRaw := eq_not_mem_getSlotId slotRaw
    have hA : '=' ∉ encodeAsciiPercent (trimStr objectId) :=
      eq_not_mem_encodeAsciiPercent _
    have hO : '=' ∉ encodeURIComponent (trimStr objectId) :=
      eq_not_mem_encodeURIComponent _
    have hT : '=' ∉ encodeURIComponent tokenLbl := eq_not_mem_encodeURIComponent _
    have hnoa : ¬ isSub pinNeedle a := by
      rcases List.mem_append.1 ha with ha1 | haObjTok
      rcases List.mem_append.1 ha1 with ha2 | haObj
      rcases List.mem_append.1 ha2 with ha3 | haAsciiTok
      rcases List.mem_append.1 ha3 with haHex | haAscii
      · -- hex-id group
        rcases hhex : encodeHexPercentIfValid (trimStr objectId) with _ | hp
        · rw [hhex] at haHex
          simp at haHex
        · rw [hhex] at haHex
          have hH : '=' ∉ hp := by
            obtain ⟨hok, hdef⟩ := hexOK_of_encodeHex _ _ hhex
            rw [hdef]
            exact eq_not_mem_hexPerc _ (Bool.and_elim_left (Bool.and_elim_left hok))
          rcases List.mem_append.1 haHex with hb1 | hbTok
          rcases List.mem_append.1 hb1 with hb2 | hbTok2
          · simp only [List.mem_singleton] at hb2
            subst hb2
            exact noPin_congr _ _ (by simp) (noPin_seg "slot-id=".data (getSlotId slotRaw)
              _ (by decide) hS (noPin_tail "id=".data hp (by decide) hH))
          · by_cases htok : tokenLbl ≠ []
            · rw [if_pos htok] at hbTok2
              simp only [List.mem_singleton] at hbTok2
              subst hbTok2
              exact noPin_congr _ _ (by simp [htok]) (noPin_seg "slot-id=".data
                (getSlotId slotRaw) _ (by decide) hS (noPin_seg "token=".data
                  (encodeURIComponent tokenLbl) _ (by decide) hT
                  (noPin_tail "id=".data hp (by decide) hH)))
            · rw [if_neg htok] at hbTok2
              simp at hbTok2
          · by_cases htok : tokenLbl ≠ []
            · rw [if_pos htok] at hbTok
              simp only [List.mem_singleton] at hbTok
              subst hbTok
              exact noPin_congr _ _ (by simp [htok]) (noPin_seg "token=".data
                (encodeURIComponent tokenLbl) _ (by decide) hT
                (noPin_tail "id=".data hp (by decide) hH))
            · rw [if_neg htok] at hbTok
              simp at hbTok
      · -- plain ascii-id entry
        simp only [List.mem_singleton] at haAscii
        subst haAscii
        exact noPin_congr _ _ (by simp) (noPin_seg "slot-id=".data (getSlotId slotRaw)
          _ (by decide) hS (noPin_tail "id=".data _ (by decide) hA))
      · -- token ascii-id entry
        by_cases htok : tokenLbl ≠ []
        · rw [if_pos htok] at haAsciiTok
          simp only [List.mem_singleton] at haAsciiTok
          subst haAsciiTok
          exact noPin_congr _ _ (by simp [htok]) (noPin_seg "slot-id=".data
            (getSlotId slotRaw) _ (by decide) hS (noPin_seg "token=".data
              (encodeURIComponent tokenLbl) _ (by decide) hT
              (noPin_tail "id=".data _ (by decide) hA)))
        · rw [if_neg htok] at haAsciiTok
          simp at haAsciiTok
      · -- plain object entry
        simp only [List.mem_singleton] at haObj
        subst haObj
        exact noPin_congr _ _ (by simp) (noPin_seg "slot-id=".data (getSlotId slotRaw)
          _ (by decide) hS (noPin_tail "object=".data _ (by decide) hO))
      · -- token object entry
        by_cases htok : tokenLbl ≠ []
        · rw [if_pos htok] at haObjTok
          simp only [List.mem_singleton] at haObjTok
          subst haObjTok
          exact noPin_congr _ _ (by simp [htok]) (noPin_seg "slot-id=".data
            (getSlotId slotRaw) _ (by decide) hS (noPin_seg "token=".data
              (encodeURIComponent tokenLbl) _ (by decide) hT
              (noPin_tail "object=".data _ (by decide) hO)))
        · rw [if_neg htok] at haObjTok
          simp at haObjTok
    rcases List.mem_cons.1 hu with hu1 | hu2
    · subst hu1
      exact noPin_scheme a hnoa
    · simp only [List.mem_singleton] at hu2
      subst hu2
      exact hnoa

theorem isSub_pinFrag (z enc : Str) :
    isSub pinNeedle (z ++ (";pin-value=".data ++ enc)) :=
  ⟨z ++ [';'], enc, by simp [pinNeedle]⟩

theorem pkcs11KeyUris_pin (objectId pin : Str) (hpin : pin ≠ []) (uri : Str)
    (hm : uri ∈ pkcs11KeyUris objectId pin) : isSub pinNeedle uri := by
  unfold pkcs11KeyUris at hm
  rw [if_pos hpin] at hm
  by_cases hid : trimStr objectId = []
  · rw [if_pos hid] at hm
    simp at hm
  · rw [if_neg hid] at hm
    have hm2 := mem_firstDedup _ _ hm
    rcases List.mem_append.1 hm2 with h1 | hObj
    rcases List.mem_append.1 h1 with hHex | hAscii
    · by_cases hok : hexOKB (trimStr objectId) = true
      · rw [if_pos hok] at hHex
        simp only [List.mem_singleton] at hHex
        subst hHex
        exact isSub_pinFrag _ _
      · rw [if_neg hok] at hHex
        simp at hHex
    · by_cases hasc : encodeAsciiPercent (trimStr objectId) ≠ []
      · rw [if_pos hasc] at hAscii
        simp only [List.mem_singleton] at hAscii
        subst hAscii
        exact isSub_pinFrag _ _
      · rw [if_neg hasc] at hAscii
        simp at hAscii
    · simp only [List.mem_singleton] at hObj
      subst hObj
      exact isSub_pinFrag _ _

/-- C1: the engine-backend locator strings of IssueCertificate
(engineKeyUris) never contain a pin-value fragment, with the PIN passed
out-of-band instead; but the claim fails for SignDocument, whose engine
fallback reuses pkcs11KeyUris, where every locator embeds the pin-value
fragment whenever a PIN is supplied. This is the amended statement. -/
theorem claim_C1_engine_pin_free (objectId tokenLbl pin : Str) (slotRaw : Option Str)
    (uri : Str) :
    (uri ∈ engineKeyUris objectId tokenLbl slotRaw → subB pinNeedle uri = false)
    ∧ (pin ≠ [] → uri ∈ pkcs11KeyUris objectId pin → subB pinNeedle uri = true) := by
  constructor
  · intro hm
    have hno := engineKeyUris_noPin objectId tokenLbl slotRaw uri hm
    cases h : subB pinNeedle uri with
    | false => rfl
    | true => exact absurd ((subB_iff _ _).1 h) hno
  · intro hpin hm
    exact (subB_iff _ _).2 (pkcs11KeyUris_pin objectId pin hpin uri hm)

/-- C1 witness: a concrete engine locator is pin-value-free while a
concrete sign-route locator for the same key id embeds the credential. -/
theorem claim_C1_witness :
    subB pinNeedle "pkcs11:slot-id=0;id=%01;type=private".data = false
    ∧ subB pinNeedle "pkcs11:id=%01;type=private;pin-value=1234".data = true :=
  ⟨(claim_C1_engine_pin_free "01".data [] "1234".data none
      "pkcs11:slot-id=0;id=%01;type=private".data).1 (by decide),
   (claim_C1_engine_pin_free "01".data [] "1234".data none
      "pkcs11:id=%01;type=private;pin-value=1234".data).2 (by decide) (by decide)⟩

/-- C1 counterexample: the claim as stated is false, because the engine
fallback of the sign route draws its locators from pkcs11KeyUris, and for
keyId 01 with pin 1234 one of those locator strings embeds the pin-value
fragment and the literal PIN. -/
theorem claim_C1_counterexample :
    "pkcs11:id=%01;type=private;pin-value=1234".data
        ∈ pkcs11KeyUris "01".data "1234".data
    ∧ subB pinNeedle "pkcs11:id=%01;type=private;pin-value=1234".data = true
    ∧ subB "1234".data "pkcs11:id=%01;type=private;pin-value=1234".data = true :=
  ⟨by decide, by decide, by decide⟩

/-- C4: no redaction exists; the operation error text and log line embed
the external tool's stderr verbatim, so whenever the PIN occurs in the
captured stderr (for instance because the tool echoes a pin-embedding URI
candidate) it occurs in the diagnostics produced for the caller and the
log. This is the amended statement. -/
theorem claim_C4_pin_in_diagnostics (stderr stdout pin : Str) :
    (stderr ≠ [] → subB pin stderr = true →
      subB pin (signErrLogLine (providerSignErrMsg stderr stdout)) = true)
    ∧ (stderr ≠ [] → subB pin (trimStr stderr) = true →
      subB pin (providerCsrErrMsg stderr stdout) = true) := by
  constructor
  · intro hne hsub
    have h1 : providerSignErrMsg stderr stdout
        = "OpenSSL cms sign failed (provider): ".data ++ stderr := by
      unfold providerSignErrMsg
      rw [if_pos hne]
    have h2 := isSub_append_left pin stderr
      ("documents.sign error: ".data ++ "OpenSSL cms sign failed (provider): ".data)
      ((subB_iff _ _).1 hsub)
    apply (subB_iff _ _).2
    unfold signErrLogLine
    rw [h1, ← List.append_assoc]
    exact h2
  · intro hne hsub
    have h1 : providerCsrErrMsg stderr stdout
        = "Provider CSR failed. ".data ++ trimStr stderr := by
      unfold providerCsrErrMsg
      rw [if_pos hne]
    apply (subB_iff _ _).2
    rw [h1]
    exact isSub_append_left pin (trimStr stderr) _ ((subB_iff _ _).1 hsub)

/-- C4 witness: with pin 1234 and a tool stderr echoing a URI candidate,
both diagnostics contain the literal PIN. -/
theorem claim_C4_witness :
    subB "1234".data (signErrLogLine (providerSignErrMsg
      "cannot load key pkcs11:id=%01;type=private;pin-value=1234".data [])) = true
    ∧ subB "1234".data (providerCsrErrMsg
      "cannot load key pkcs11:id=%01;type=private;pin-value=1234".data []) = true :=
  ⟨(claim_C4_pin_in_diagnostics
      "cannot load key pkcs11:id=%01;type=private;pin-value=1234".data [] "1234".data).1
      (by decide) (by decide),
   (claim_C4_pin_in_diagnostics
      "cannot load key pkcs11:id=%01;type=private;pin-value=1234".data [] "1234".data).2
      (by decide) (by decide)⟩

/-- C4 counterexample: the claim as stated is false. A provider URI
candidate embedding pin 1234 is among the attempted locators, and when the
tool stderr echoes it, the error text returned to the caller contains the
literal PIN, as does the sign-route log line. -/
theorem claim_C4_counterexample :
    "pkcs11:slot-id=0;id=%01;type=private;pin-value=1234".data
        ∈ provUris "01".data "1234".data "SC-HSM".data "m".data none
    ∧ subB "1234".data (providerCsrErrMsg
        "pkcs11:slot-id=0;id=%01;type=private;pin-value=1234".data []) = true
    ∧ subB "1234".data (signErrLogLine (providerSignErrMsg
        "pkcs11:id=%01;type=private;pin-value=1234".data [])) = true :=
  ⟨by decide, by decide, by decide⟩

/-- C2: on every failing exit path of generateHandler the catch block
deletes every transient file, but on the success path no cleanup runs and
all four transient files (extension config, CSR, PEM, DER) remain on
disk. This is the amended statement. -/
theorem claim_C2_cleanup (o : IssueOracle) :
    ((runIssue o).exit ≠ .ok → (runIssue o).remaining = [])
    ∧ ((runIssue o).exit = .ok →
        (runIssue o).remaining = [.ext, .csr, .pem, .der]) := by
  unfold runIssue finishIssue
  repeat' split
  all_goals try simp [removeCleanup, cleanupList]
  all_goals repeat' split
  all_goals simp [removeCleanup, cleanupList]

/-- C2 witness: on a run where the provider preflight succeeds but the
x509 self-sign fails, the operation throws and no transient file remains. -/
theorem claim_C2_witness :
    (runIssue ⟨true, "01".data, "1234".data, false, true, [true], false, false,
      false, [], false, false, true⟩).remaining = [] :=
  (claim_C2_cleanup ⟨true, "01".data, "1234".data, false, true, [true], false, false,
      false, [], false, false, true⟩).1 (by decide)

/-- C2 counterexample: the claim as stated is false. On a fully successful
issuance the call returns ok and the CSR file, the extension-config file
and the PEM/DER files all remain on disk. -/
theorem claim_C2_counterexample :
    (runIssue ⟨true, "01".data, "1234".data, false, true, [true], true, true,
      false, [], false, false, true⟩).exit = .ok
    ∧ TFile.csr ∈ (runIssue ⟨true, "01".data, "1234".data, false, true, [true],
        true, true, false, [], false, false, true⟩).remaining
    ∧ TFile.ext ∈ (runIssue ⟨true, "01".data, "1234".data, false, true, [true],
        true, true, false, [], false, false, true⟩).remaining := by
  refine ⟨by decide, by decide, by decide⟩

/-- C3: the store does not fail closed; any unreadable or unparseable
record file is silently replaced by the built-in empty store on read, for
both the certificate and the signature store. This is the amended
statement. -/
theorem claim_C3_fail_open :
    (∀ r : ReadOutcome CertStore,
      r = .unreadable ∨ r = .unparseable → getCertStore r = emptyCertStore)
    ∧ (∀ r : ReadOutcome SignStore,
      r = .unreadable ∨ r = .unparseable → getSignStore r = emptySignStore) := by
  constructor <;> rintro r (rfl | rfl) <;> rfl

/-- C3 witness: an unparseable certificate file reads as the empty store. -/
theorem claim_C3_witness : getCertStore .unparseable = emptyCertStore :=
  claim_C3_fail_open.1 .unparseable (Or.inr rfl)

/-- C3 counterexample: the claim as stated is false. A corrupt store is
treated exactly as the empty collection with zero records, rather than
surfacing a StoreCorruption error (the read has no error outcome at all). -/
theorem claim_C3_counterexample :
    getCertStore .unparseable = ⟨0, []⟩
    ∧ (getCertStore .unparseable).certificates.length = 0
    ∧ getSignStore .unreadable = ⟨0, []⟩ :=
  ⟨rfl, rfl, rfl⟩

/-- C7: the validity period defaults to 365 exactly when the supplied
body value is JavaScript-falsy (absent, null, empty string, the number 0,
or false); any truthy value is converted with Number() and used as-is,
even when the conversion is non-positive or NaN. This is the amended
statement. -/
theorem claim_C7_validity_default (v : JSVal) :
    validityDaysOf .undef = .int 365
    ∧ (truthy v = false → validityDaysOf v = .int 365)
    ∧ (truthy v = true → validityDaysOf v = toNumber v) := by
  refine ⟨rfl, ?_, ?_⟩ <;>
    · intro h
      unfold validityDaysOf jsOr
      rw [h]
      rfl

/-- C7 witness: the truthy string minus-five is converted and used. -/
theorem claim_C7_witness :
    validityDaysOf (JSVal.str "-5".data) = toNumber (JSVal.str "-5".data) :=
  (claim_C7_validity_default (JSVal.str "-5".data)).2.2 (by decide)

/-- C7 counterexample: the claim as stated is false. The caller-supplied
string minus-five parses to the non-positive value minus five, which is
used for signing instead of the claimed default of 365; the string zero
likewise parses to zero and is used. -/
theorem claim_C7_counterexample :
    validityDaysOf (JSVal.str "-5".data) = .int (-5)
    ∧ (-5 : Int) ≤ 0
    ∧ validityDaysOf (JSVal.str "-5".data) ≠ .int 365
    ∧ validityDaysOf (JSVal.str "0".data) = .int 0 := by
  refine ⟨by decide, by decide, by decide, by decide⟩

theorem revokeIn_none (certs : List CertRecord) (id now reason : Str)
    (h : ∀ c ∈ certs, c.id ≠ id) : revokeIn certs id now reason = none := by
  induction certs with
  | nil => rfl
  | cons c rest ih =>
    unfold revokeIn
    rw [if_neg (h c (List.mem_cons_self c rest))]
    rw [ih fun c2 hc2 => h c2 (List.mem_cons_of_mem c hc2)]

theorem revokeIn_some (certs : List CertRecord) (id now reason : Str)
    (certs2 : List CertRecord) (r : CertRecord)
    (h : revokeIn certs id now reason = some (certs2, r)) :
    certs2.length = certs.length ∧ r.status = "revoked".data
    ∧ r.revocationDate = some now ∧ r.revocationReason = some reason
    ∧ r.id = id ∧ r ∈ certs2 := by
  induction certs generalizing certs2 r with
  | nil => simp [revokeIn] at h
  | cons c rest ih =>
    unfold revokeIn at h
    by_cases hc : c.id = id
    · rw [if_pos hc] at h
      simp only [Option.some_inj, Prod.mk.injEq] at h
      obtain ⟨h1, h2⟩ := h
      subst h1
      subst h2
      refine ⟨by simp, rfl, rfl, rfl, hc, List.mem_cons_self _ _⟩
    · rw [if_neg hc] at h
      cases hrec : revokeIn rest id now reason with
      | none =>
        rw [hrec] at h
        simp at h
      | some pr =>
        obtain ⟨rest2, r2⟩ := pr
        rw [hrec] at h
        simp only [Option.some_inj, Prod.mk.injEq] at h
        obtain ⟨h1, h2⟩ := h
        subst h1
        subst h2
        obtain ⟨hl, hs, hd, hr, hid, hmem⟩ := ih rest2 r2 hrec
        exact ⟨by simp [hl], hs, hd, hr, hid, List.mem_cons_of_mem c hmem⟩

theorem revokeIn_found (certs : List CertRecord) (id now reason : Str)
    (h : ∃ c ∈ certs, c.id = id) :
    ∃ pr, revokeIn certs id now reason = some pr := by
  induction certs with
  | nil => simp at h
  | cons c rest ih =>
    by_cases hc : c.id = id
    · exact ⟨_, by unfold revokeIn; rw [if_pos hc]⟩
    · obtain ⟨c2, hc2, hceq⟩ := h
      rcases List.mem_cons.1 hc2 with rfl | hmem
      · exact absurd hceq hc
      · obtain ⟨pr, hpr⟩ := ih ⟨c2, hmem, hceq⟩
        exact ⟨(c :: pr.1, pr.2), by unfold revokeIn; rw [if_neg hc, hpr]⟩

/-- C8: revocation is a pure local state transition. For an id absent from
the store the lookup fails and nothing is persisted; for a present id the
record is stamped revoked with the timestamp and the caller reason
(defaulting to unspecified), the record count is preserved and the
persisted total matches it; and revoking the same id a second time
succeeds again with status revoked and the same record count. -/
theorem claim_C8_revoke (st : CertStore) (id now now2 : Str)
    (reason reason2 : Option Str) :
    ((∀ c ∈ st.certificates, c.id ≠ id) → revokeCert st id now reason = none)
    ∧ (∀ st2 r, revokeCert st id now reason = some (st2, r) →
        r.status = "revoked".data
        ∧ r.revocationDate = some now
        ∧ r.revocationReason = some (bodyReason reason)
        ∧ st2.certificates.length = st.certificates.length
        ∧ st2.total = st2.certificates.length
        ∧ ∃ st3 r2, revokeCert st2 id now2 reason2 = some (st3, r2)
            ∧ r2.status = "revoked".data
            ∧ st3.certificates.length = st2.certificates.length) := by
  constructor
  · intro h
    unfold revokeCert
    rw [revokeIn_none st.certificates id now (bodyReason reason) h]
  · intro st2 r h
    unfold revokeCert at h
    cases hrec : revokeIn st.certificates id now (bodyReason reason) with
    | none =>
      rw [hrec] at h
      simp at h
    | some pr =>
      obtain ⟨certs2, r2⟩ := pr
      rw [hrec] at h
      simp only [Option.some_inj, Prod.mk.injEq] at h
      obtain ⟨h1, h2⟩ := h
      subst h2
      obtain ⟨hl, hs, hd, hr, hid, hmem⟩ := revokeIn_some _ _ _ _ _ _ hrec
      have hcerts : st2.certificates = certs2 := by
        rw [← h1]
        rfl
      have htot : st2.total = certs2.length := by
        rw [← h1]
        rfl
      refine ⟨hs, hd, hr, by rw [hcerts]; exact hl, by rw [htot, hcerts], ?_⟩
      obtain ⟨pr2, hpr2⟩ := revokeIn_found st2.certificates id now2
        (bodyReason reason2) ⟨r2, by rw [hcerts]; exact hmem, hid⟩
      obtain ⟨hl2, hs2, _, _, _, _⟩ := revokeIn_some _ _ _ _ _ _ hpr2
      refine ⟨persistCertStore { st2 with certificates := pr2.1 }, pr2.2, ?_, hs2, ?_⟩
      · unfold revokeCert
        rw [hpr2]
      · simpa using hl2

/-- C8 witness: on a one-record store, revoking a missing id returns
NotFound, and revoking the present id yields a revoked record with the
persisted total matching the record count. -/
theorem claim_C8_witness :
    revokeCert (⟨1, [⟨"a".data, "01".data, "AA".data, "valid".data, none, none⟩]⟩ :
        CertStore) "zz".data "t1".data none = none
    ∧ (⟨"a".data, "01".data, "AA".data, "revoked".data, some "t1".data,
          some "unspecified".data⟩ : CertRecord).status = "revoked".data
    ∧ (⟨1, [⟨"a".data, "01".data, "AA".data, "revoked".data, some "t1".data,
          some "unspecified".data⟩]⟩ : CertStore).total
        = (⟨1, [⟨"a".data, "01".data, "AA".data, "revoked".data, some "t1".data,
          some "unspecified".data⟩]⟩ : CertStore).certificates.length :=
  ⟨(claim_C8_revoke ⟨1, [⟨"a".data, "01".data, "AA".data, "valid".data, none, none⟩]⟩
      "zz".data "t1".data "t2".data none none).1 (by decide),
   ((claim_C8_revoke ⟨1, [⟨"a".data, "01".data, "AA".data, "valid".data, none, none⟩]⟩
      "a".data "t1".data "t2".data none none).2
      ⟨1, [⟨"a".data, "01".data, "AA".data, "revoked".data, some "t1".data,
        some "unspecified".data⟩]⟩
      ⟨"a".data, "01".data, "AA".data, "revoked".data, some "t1".data,
        some "unspecified".data⟩ rfl).1,
   ((claim_C8_revoke ⟨1, [⟨"a".data, "01".data, "AA".data, "valid".data, none, none⟩]⟩
      "a".data "t1".data "t2".data none none).2
      ⟨1, [⟨"a".data, "01".data, "AA".data, "revoked".data, some "t1".data,
        some "unspecified".data⟩]⟩
      ⟨"a".data, "01".data, "AA".data, "revoked".data, some "t1".data,
        some "unspecified".data⟩ rfl).2.2.2.2.1⟩

/-- C9: every store write goes through the persist helpers, which set the
total field to the collection length inside the single object that the one
saveJSON call serialises; hence after a sign-record append, a certificate
append, or a revoke update, the persisted total always equals the number
of persisted items. -/
theorem claim_C9_total_consistent (s2 : SignStore) (st : CertStore)
    (r1 : ReadOutcome SignStore) (rec : SigRecord)
    (r2 : ReadOutcome CertStore) (crec : CertRecord) :
    (persistSignStore s2).total = (persistSignStore s2).items.length
    ∧ (persistCertStore st).total = (persistCertStore st).certificates.length
    ∧ (appendSignRecord r1 rec).total = (appendSignRecord r1 rec).items.length
    ∧ (appendSignRecord r1 rec).items.length = (getSignStore r1).items.length + 1
    ∧ (appendCertRecord r2 crec).total = (appendCertRecord r2 crec).certificates.length
    ∧ (appendCertRecord r2 crec).certificates.length
        = (getCertStore r2).certificates.length + 1
    ∧ (∀ id now reason st2 rrec, revokeCert st id now reason = some (st2, rrec) →
        st2.total = st2.certificates.length) := by
  refine ⟨rfl, rfl, rfl, by simp [appendSignRecord, persistSignStore], rfl,
    by simp [appendCertRecord, persistCertStore], ?_⟩
  intro id now reason st2 rrec h
  unfold revokeCert at h
  cases hrec : revokeIn st.certificates id now (bodyReason reason) with
  | none =>
    rw [hrec] at h
    simp at h
  | some pr =>
    rw [hrec] at h
    simp only [Option.some_inj, Prod.mk.injEq] at h
    rw [← h.1]
    rfl

/-- C9 witness: a concrete append to an unreadable signature store and a
concrete revoke both leave total equal to the collection length. -/
theorem claim_C9_witness :
    (appendSignRecord .unreadable ⟨"s1".data, true, "d.p7s".data⟩).total
      = (appendSignRecord .unreadable ⟨"s1".data, true, "d.p7s".data⟩).items.length
    ∧ (⟨1, [⟨"a".data, "01".data, "AA".data, "revoked".data, some "t1".data,
          some "unspecified".data⟩]⟩ : CertStore).total
        = (⟨1, [⟨"a".data, "01".data, "AA".data, "revoked".data, some "t1".data,
          some "unspecified".data⟩]⟩ : CertStore).certificates.length :=
  ⟨(claim_C9_total_consistent ⟨0, []⟩
      ⟨1, [⟨"a".data, "01".data, "AA".data, "valid".data, none, none⟩]⟩
      .unreadable ⟨"s1".data, true, "d.p7s".data⟩ .unreadable
      ⟨"x".data, "k".data, "S".data, "valid".data, none, none⟩).2.2.1,
   (claim_C9_total_consistent ⟨0, []⟩
      ⟨1, [⟨"a".data, "01".data, "AA".data, "valid".data, none, none⟩]⟩
      .unreadable ⟨"s1".data, true, "d.p7s".data⟩ .unreadable
      ⟨"x".data, "k".data, "S".data, "valid".data, none, none⟩).2.2.2.2.2.2
      "a".data "t1".data none
      ⟨1, [⟨"a".data, "01".data, "AA".data, "revoked".data, some "t1".data,
        some "unspecified".data⟩]⟩
      ⟨"a".data, "01".data, "AA".data, "revoked".data, some "t1".data,
        some "unspecified".data⟩ rfl⟩

theorem mem_natToDecGo (fuel : Nat) : ∀ (n : Nat) (c : Char),
    c ∈ natToDecGo fuel n → c ∈ "0123456789".data := by
  induction fuel with
  | zero => intro n c h; simp [natToDecGo] at h
  | succ f ih =>
    intro n c h
    rw [natToDecGo] at h
    by_cases hn : n < 10
    · rw [if_pos hn] at h
      simp only [List.mem_singleton] at h
      subst h
      have hb : n < ("0123456789".data).length := hn
      rw [List.getD_eq_getElem _ _ hb]
      exact List.getElem_mem hb
    · rw [if_neg hn] at h
      rcases List.mem_append.1 h with h1 | h2
      · exact ih _ c h1
      · simp only [List.mem_singleton] at h2
        subst h2
        have hb : n % 10 < ("0123456789".data).length := Nat.mod_lt _ (by decide)
        rw [List.getD_eq_getElem _ _ hb]
        exact List.getElem_mem hb

theorem intToStr_no_t (n : Int) : lowerStr (intToStr n) ≠ "true".data := by
  intro h
  have ht : 't' ∈ lowerStr (intToStr n) := by
    rw [h]
    simp
  obtain ⟨c, hc, hcl⟩ := List.mem_map.1 ht
  have hcs : c = '-' ∨ c ∈ "0123456789".data := by
    unfold intToStr at hc
    by_cases hneg : n < 0
    · rw [if_pos hneg] at hc
      rcases List.mem_cons.1 hc with h1 | h2
      · exact Or.inl h1
      · exact Or.inr (mem_natToDecGo _ _ _ h2)
    · rw [if_neg hneg] at hc
      exact Or.inr (mem_natToDecGo _ _ _ hc)
  rcases toLower_preimage c 't' hcl with rfl | ⟨h1, h2, h3⟩
  · rcases hcs with h4 | h4
    · exact absurd h4 (by decide)
    · exact absurd h4 (by decide)
  · have hct : ('t').toNat = 116 := rfl
    have : c.toNat = 84 := by omega
    rcases hcs with h4 | h4
    · rw [h4] at this
      exact absurd this (by decide)
    · have hle : c.toNat < 65 := by
        have : ∀ d ∈ "0123456789".data, d.toNat < 65 := by decide
        exact this c h4
      omega

/-- C10: when the caller omits the detached flag the sign route defaults
to a detached signature with a p7s output name; a supplied value is
treated as true exactly when it is boolean true or its String() rendering
lower-cases to the word true, and in particular no numeric value ever
counts as true. -/
theorem claim_C10_detached_default (v : JSVal) (base : Str) :
    detachedOf .undef = true
    ∧ outputNameOf (detachedOf .undef) base = base ++ ".p7s".data
    ∧ (detachedOf v = true ↔
        v = .undef ∨ v = .bool true ∨ lowerStr (jsToStr v) = "true".data)
    ∧ (∀ n : Int, detachedOf (.num n) = false) := by
  refine ⟨rfl, rfl, ?_, ?_⟩
  · cases v with
    | undef => simp [detachedOf]
    | null => simp [detachedOf, isTrueJS, jsToStr, lowerStr]
    | bool b => cases b <;> simp [detachedOf, isTrueJS, jsToStr, lowerStr]
    | num n =>
      simp only [detachedOf, isTrueJS, jsToStr, Bool.or_eq_true, decide_eq_true_eq]
      constructor
      · rintro (h | h)
        · exact absurd h (by simp)
        · exact Or.inr (Or.inr h)
      · rintro (h | h | h)
        · exact absurd h (by simp)
        · exact absurd h (by simp)
        · exact Or.inr h
    | str s =>
      simp only [detachedOf, isTrueJS, jsToStr, Bool.or_eq_true, decide_eq_true_eq]
      constructor
      · rintro (h | h)
        · exact absurd h (by simp)
        · exact Or.inr (Or.inr h)
      · rintro (h | h | h)
        · exact absurd h (by simp)
        · exact absurd h (by simp)
        · exact Or.inr h
  · intro n
    simp only [detachedOf, isTrueJS, jsToStr]
    rw [Bool.or_eq_false_iff]
    constructor
    · simp
    · rw [decide_eq_false_iff_not]
      exact intToStr_no_t n

/-- C10 witness: the upper-case string TRUE counts as detached, the
number one does not, and the detached output for a base name carries the
p7s suffix. -/
theorem claim_C10_witness :
    detachedOf (JSVal.str "TRUE".data) = true
    ∧ detachedOf (JSVal.num 1) = false
    ∧ outputNameOf (detachedOf .undef) "doc".data = "doc".data ++ ".p7s".data :=
  ⟨((claim_C10_detached_default (JSVal.str "TRUE".data) "doc".data).2.2.1).2
      (Or.inr (Or.inr (by decide))),
   (claim_C10_detached_default (JSVal.str [] ) "doc".data).2.2.2 1,
   (claim_C10_detached_default (JSVal.str [] ) "doc".data).2.1⟩

/-- C5: the stored certificate serial is exactly the serial extracted by
parsing the produced certificate whenever the parse yields one, and the
random fallback is used only when parsing yields none; the parsed serial
is already colon-stripped, non-empty and not caller-influenced, since
recordSerial takes only the parse result and the generated fallback. -/
theorem claim_C5_serial_fidelity (txt rand : Str) :
    (∀ s, metaSerial txt = some s → recordSerial (metaSerial txt) rand = s)
    ∧ (metaSerial txt = none → recordSerial (metaSerial txt) rand = rand)
    ∧ (∀ s, metaSerial txt = some s → s ≠ [] ∧ ':' ∉ s) := by
  refine ⟨?_, ?_, ?_⟩
  · intro s h
    rw [h]
    rfl
  · intro h
    rw [h]
    rfl
  · intro s h
    unfold metaSerial at h
    simp only at h
    split at h
    · exact absurd h (by simp)
    · next he =>
      have hs := (Option.some_inj.1 h).symm
      subst hs
      refine ⟨he, ?_⟩
      intro hc
      obtain ⟨c, hcf, hcu⟩ := List.mem_map.1 hc
      have hcne : c ≠ ':' := by
        have := List.of_mem_filter hcf
        simpa using this
      rcases toUpper_preimage c ':' hcu with rfl | ⟨h1, h2, h3⟩
      · exact hcne rfl
      · have hct : (':').toNat = 58 := rfl
        omega

/-- C5 witness: a certificate dump with a colon-separated lower-case
serial stores the colon-stripped upper-case parse, while a dump with no
serial marker stores the random fallback. -/
theorem claim_C5_witness :
    recordSerial (metaSerial "serial=0a:1b\nnotBefore=x".data) "RAND99".data
      = "0A1B".data
    ∧ recordSerial (metaSerial "no serial here".data) "RAND99".data
      = "RAND99".data :=
  ⟨(claim_C5_serial_fidelity "serial=0a:1b\nnotBefore=x".data "RAND99".data).1
      "0A1B".data (by decide),
   (claim_C5_serial_fidelity "no serial here".data "RAND99".data).2.1 (by decide)⟩

theorem chAt_append_left (k : Nat) (a b : Str) (h : k < a.length) :
    chAt k (a ++ b) = chAt k a := by
  unfold chAt
  have h2 : k < (a ++ b).length := by
    simp
    omega
  rw [List.getD_eq_getElem _ _ h2, List.getD_eq_getElem _ _ h]
  exact List.getElem_append_left h

theorem natToHexGo_small (fuel m : Nat) (hm : m < 16) (hf : 0 < fuel) :
    natToHexGo fuel m = [hexL m] := by
  cases fuel with
  | zero => omega
  | succ f => simp [natToHexGo, hm]

theorem pad2_natToHex_length (n : Nat) (h : n < 256) :
    (pad2 (natToHex n)).length = 2 := by
  by_cases h16 : n < 16
  · have : natToHex n = [hexL n] := natToHexGo_small _ _ h16 (by omega)
    simp [pad2, this]
  · have hdiv : n / 16 < 16 := by omega
    have : natToHex n = natToHexGo n (n / 16) ++ [hexL (n % 16)] := by
      unfold natToHex
      rw [natToHexGo]
      rw [if_neg h16]
    rw [this, natToHexGo_small n (n / 16) hdiv (by omega)]
    simp [pad2]

theorem encodeAsciiPercent_length_ge (s : Str) :
    3 * s.length ≤ (encodeAsciiPercent s).length := by
  unfold encodeAsciiPercent
  rw [List.length_map]
  induction s with
  | nil => simp
  | cons c cs ih =>
    simp only [List.flatMap_cons, List.length_append, List.length_cons]
    have h2 : 2 ≤ (pad2 (natToHex c.toNat)).length := by
      unfold pad2
      by_cases hl : (natToHex c.toNat).length < 2
      · rw [if_pos hl]
        simp only [List.length_append, List.length_replicate]
        omega
      · rw [if_neg hl]
        omega
    simp only [List.length_cons] at ih ⊢
    omega

theorem encodeAsciiPercent_length (s : Str) (h : ∀ c ∈ s, c.toNat < 256) :
    (encodeAsciiPercent s).length = 3 * s.length := by
  unfold encodeAsciiPercent
  rw [List.length_map]
  induction s with
  | nil => simp
  | cons c cs ih =>
    simp only [List.flatMap_cons, List.length_append, List.length_cons]
    rw [pad2_natToHex_length c.toNat (h c (List.mem_cons_self c cs))]
    rw [ih fun d hd => h d (List.mem_cons_of_mem c hd)]
    omega

theorem hexPairsPercent_length : ∀ (s : Str), s.length % 2 = 0 →
    (hexPairsPercent s).length = 3 * (s.length / 2)
  | [], _ => rfl
  | [a], h => by simp at h
  | a :: b :: rest, h => by
    have h2 : rest.length % 2 = 0 := by
      simp only [List.length_cons] at h
      omega
    simp only [hexPairsPercent, List.length_cons,
      hexPairsPercent_length rest h2]
    omega

theorem encodeAsciiPercent_ne_nil (s : Str) (h : s ≠ []) :
    encodeAsciiPercent s ≠ [] := by
  intro he
  have h1 := encodeAsciiPercent_length_ge s
  rw [he] at h1
  simp at h1
  cases s with
  | nil => exact h rfl
  | cons c cs => simp at h1

theorem trimStr_length_le (s : Str) : (trimStr s).length ≤ s.length := by
  unfold trimStr
  have h1 : (s.dropWhile isWSB).length ≤ s.length :=
    (List.dropWhile_sublist _).length_le
  have h2 : ((s.dropWhile isWSB).reverse.dropWhile isWSB).length
      ≤ (s.dropWhile isWSB).reverse.length :=
    (List.dropWhile_sublist _).length_le
  simp only [List.length_reverse] at *
  omega

theorem hexOKB_spec (s : Str) (h : hexOKB s = true) :
    s.all hexCharB = true ∧ 2 ≤ s.length ∧ s.length % 2 = 0 := by
  unfold hexOKB at h
  have h1 := Bool.and_elim_left (Bool.and_elim_left h)
  have h2 := Bool.and_elim_right (Bool.and_elim_left h)
  have h3 := Bool.and_elim_right h
  refine ⟨h1, of_decide_eq_true h2, ?_⟩
  simpa using h3

theorem chAt_prefix2 (k : Nat) (pre v rest : Str) (hk : k < pre.length) :
    chAt k ((pre ++ v) ++ rest) = chAt k pre := by
  rw [chAt_append_left k (pre ++ v) rest
    (by simp only [List.length_append]; omega)]
  exact chAt_append_left k pre v hk

theorem chAt_prefix3 (k : Nat) (pre v r1 r2 : Str) (hk : k < pre.length) :
    chAt k (((pre ++ v) ++ r1) ++ r2) = chAt k pre := by
  rw [chAt_append_left k ((pre ++ v) ++ r1) r2
    (by simp only [List.length_append]; omega)]
  exact chAt_prefix2 k pre v r1 hk

theorem restIdPin_ne_restId (x y p : Str) (h : y.length ≤ x.length) :
    restIdPin x p ≠ restId y := by
  intro he
  have hlen := congrArg List.length he
  unfold restIdPin restId at hlen
  simp only [List.length_append] at hlen
  have e1 : ("id=".data).length = 3 := rfl
  have e2 : (";type=private;pin-value=".data).length = 24 := rfl
  have e3 : (";type=private".data).length = 13 := rfl
  rw [e1, e2, e3] at hlen
  omega

theorem restIdPin_ne_len (x y p : Str) (h : x.length ≠ y.length) :
    restIdPin x p ≠ restIdPin y p := by
  intro he
  have hlen := congrArg List.length he
  unfold restIdPin at hlen
  simp only [List.length_append] at hlen
  omega

theorem restIdPin_ne_restObjPin (x o p q : Str) : restIdPin x p ≠ restObjPin o q := by
  intro he
  have h7 := congrArg (chAt 0) he
  unfold restIdPin restObjPin at h7
  rw [chAt_prefix3 0 "id=".data x _ _ (by decide),
    chAt_prefix3 0 "object=".data o _ _ (by decide)] at h7
  exact absurd h7 (by decide)

theorem restId_ne_restObjPin (y o q : Str) : restId y ≠ restObjPin o q := by
  intro he
  have h7 := congrArg (chAt 0) he
  unfold restId restObjPin at h7
  rw [chAt_prefix2 0 "id=".data y _ (by decide),
    chAt_prefix3 0 "object=".data o _ _ (by decide)] at h7
  exact absurd h7 (by decide)

theorem provSlotU_inj (s r1 r2 : Str) (h : provSlotU s r1 = provSlotU s r2) :
    r1 = r2 := by
  unfold provSlotU at h
  have h2 := List.append_cancel_left h
  exact List.tail_eq_of_cons_eq h2

theorem provTokU_inj (t r1 r2 : Str) (h : provTokU t r1 = provTokU t r2) :
    r1 = r2 := by
  unfold provTokU at h
  have h2 := List.append_cancel_left h
  exact List.tail_eq_of_cons_eq h2

theorem provModU_inj (m r1 r2 : Str) (h : provModU m r1 = provModU m r2) :
    r1 = r2 := by
  unfold provModU at h
  have h2 := List.append_cancel_left h
  exact List.tail_eq_of_cons_eq h2

theorem chAt7_provSlotU (s r : Str) : chAt 7 (provSlotU s r) = 's' := by
  unfold provSlotU
  rw [chAt_prefix2 7 _ _ _ (by decide)]
  rfl

theorem chAt7_provTokU (t r : Str) : chAt 7 (provTokU t r) = 't' := by
  unfold provTokU
  rw [chAt_prefix2 7 _ _ _ (by decide)]
  rfl

theorem chAt7_provModU (m r : Str) : chAt 7 (provModU m r) = 'm' := by
  unfold provModU
  rw [chAt_prefix2 7 _ _ _ (by decide)]
  rfl

theorem slot_ne_tok (s t r1 r2 : Str) : provSlotU s r1 ≠ provTokU t r2 := by
  intro h
  have h2 := congrArg (chAt 7) h
  rw [chAt7_provSlotU, chAt7_provTokU] at h2
  exact absurd h2 (by decide)

theorem slot_ne_mod (s m r1 r2 : Str) : provSlotU s r1 ≠ provModU m r2 := by
  intro h
  have h2 := congrArg (chAt 7) h
  rw [chAt7_provSlotU, chAt7_provModU] at h2
  exact absurd h2 (by decide)

theorem tok_ne_mod (t m r1 r2 : Str) : provTokU t r1 ≠ provModU m r2 := by
  intro h
  have h2 := congrArg (chAt 7) h
  rw [chAt7_provTokU, chAt7_provModU] at h2
  exact absurd h2 (by decide)

theorem firstDedupGo_eq_self (l : List Str) : ∀ seen, l.Nodup →
    (∀ x ∈ l, x ∉ seen) → firstDedupGo seen l = l := by
  induction l with
  | nil => intro seen _ _; rfl
  | cons y ys ih =>
    intro seen hnd hdis
    unfold firstDedupGo
    rw [if_neg (hdis y (List.mem_cons_self y ys))]
    rw [ih (y :: seen) (List.Nodup.of_cons hnd)]
    intro x hx
    simp only [List.mem_cons, not_or]
    exact ⟨fun he => (List.nodup_cons.1 hnd).1 (he ▸ hx),
      hdis x (List.mem_cons_of_mem y hx)⟩

theorem firstDedup_eq_self (l : List Str) (h : l.Nodup) : firstDedup l = l :=
  firstDedupGo_eq_self l [] h (by simp)

theorem pk_id_ne_obj (x o pf : Str) :
    "pkcs11:id=".data ++ x ++ ";type=private".data ++ pf
      ≠ "pkcs11:slot-id=0;object=".data ++ o ++ ";type=private".data ++ pf := by
  intro h
  have h2 := congrArg (chAt 7) h
  rw [chAt_prefix3 7 "pkcs11:id=".data x _ _ (by decide),
    chAt_prefix3 7 "pkcs11:slot-id=0;object=".data o _ _ (by decide)] at h2
  exact absurd h2 (by decide)

theorem pk_hex_ne_ascii (x y pf : Str) (h : x.length < y.length) :
    "pkcs11:id=".data ++ x ++ ";type=private".data ++ pf
      ≠ "pkcs11:id=".data ++ y ++ ";type=private".data ++ pf := by
  intro he
  have hlen := congrArg List.length he
  simp only [List.length_append] at hlen
  omega

theorem hexPerc_shorter (s : Str) (hok : hexOKB s = true) :
    ((hexPairsPercent s).map Char.toUpper).length < (encodeAsciiPercent s).length := by
  obtain ⟨_, hlen2, heven⟩ := hexOKB_spec s hok
  rw [List.length_map, hexPairsPercent_length s heven]
  have hge := encodeAsciiPercent_length_ge s
  omega

theorem pkcs11KeyUris_spec (objectId pin : Str) :
    pkcs11KeyUris objectId pin =
      (if trimStr objectId = [] then []
       else if hexOKB (trimStr objectId) then
        ["pkcs11:id=".data ++ (hexPairsPercent (trimStr objectId)).map Char.toUpper
            ++ ";type=private".data
            ++ (if pin ≠ [] then ";pin-value=".data ++ encodeURIComponent pin else []),
         "pkcs11:id=".data ++ encodeAsciiPercent (trimStr objectId)
            ++ ";type=private".data
            ++ (if pin ≠ [] then ";pin-value=".data ++ encodeURIComponent pin else []),
         "pkcs11:slot-id=0;object=".data ++ encodeURIComponent (trimStr objectId)
            ++ ";type=private".data
            ++ (if pin ≠ [] then ";pin-value=".data ++ encodeURIComponent pin else [])]
       else
        ["pkcs11:id=".data ++ encodeAsciiPercent (trimStr objectId)
            ++ ";type=private".data
            ++ (if pin ≠ [] then ";pin-value=".data ++ encodeURIComponent pin else []),
         "pkcs11:slot-id=0;object=".data ++ encodeURIComponent (trimStr objectId)
            ++ ";type=private".data
            ++ (if pin ≠ [] then ";pin-value=".data ++ encodeURIComponent pin else [])])
    ∧ (pkcs11KeyUris objectId pin).Nodup := by
  unfold pkcs11KeyUris
  by_cases hid : trimStr objectId = []
  · rw [if_pos hid, if_pos hid]
    exact ⟨rfl, List.nodup_nil⟩
  · rw [if_neg hid, if_neg hid]
    rw [if_pos (encodeAsciiPercent_ne_nil _ hid)]
    by_cases hok : hexOKB (trimStr objectId) = true
    · rw [if_pos hok, if_pos hok]
      have hlist : (["pkcs11:id=".data
            ++ (hexPairsPercent (trimStr objectId)).map Char.toUpper
            ++ ";type=private".data
            ++ (if pin ≠ [] then ";pin-value=".data ++ encodeURIComponent pin else [])]
          ++ ["pkcs11:id=".data ++ encodeAsciiPercent (trimStr objectId)
            ++ ";type=private".data
            ++ (if pin ≠ [] then ";pin-value=".data ++ encodeURIComponent pin else [])]
          ++ ["pkcs11:slot-id=0;object=".data
            ++ encodeURIComponent (trimStr objectId) ++ ";type=private".data
            ++ (if pin ≠ [] then ";pin-value=".data ++ encodeURIComponent pin else [])])
          = ["pkcs11:id=".data
            ++ (hexPairsPercent (trimStr objectId)).map Char.toUpper
            ++ ";type=private".data
            ++ (if pin ≠ [] then ";pin-value=".data ++ encodeURIComponent pin else []),
           "pkcs11:id=".data ++ encodeAsciiPercent (trimStr objectId)
            ++ ";type=private".data
            ++ (if pin ≠ [] then ";pin-value=".data ++ encodeURIComponent pin else []),
           "pkcs11:slot-id=0;object=".data
            ++ encodeURIComponent (trimStr objectId) ++ ";type=private".data
            ++ (if pin ≠ [] then ";pin-value=".data ++ encodeURIComponent pin else [])] := by
        simp
      rw [hlist]
      have hnd : List.Nodup ["pkcs11:id=".data
            ++ (hexPairsPercent (trimStr objectId)).map Char.toUpper
            ++ ";type=private".data
            ++ (if pin ≠ [] then ";pin-value=".data ++ encodeURIComponent pin else []),
           "pkcs11:id=".data ++ encodeAsciiPercent (trimStr objectId)
            ++ ";type=private".data
            ++ (if pin ≠ [] then ";pin-value=".data ++ encodeURIComponent pin else []),
           "pkcs11:slot-id=0;object=".data
            ++ encodeURIComponent (trimStr objectId) ++ ";type=private".data
            ++ (if pin ≠ [] then ";pin-value=".data ++ encodeURIComponent pin else [])] := by
        refine List.Pairwise.cons ?_ (List.Pairwise.cons ?_
          (List.Pairwise.cons ?_ List.Pairwise.nil))
        · intro b hb
          simp only [List.mem_cons, List.not_mem_nil, or_false] at hb
          rcases hb with rfl | rfl
          · exact pk_hex_ne_ascii _ _ _ (hexPerc_shorter _ hok)
          · exact pk_id_ne_obj _ _ _
        · intro b hb
          simp only [List.mem_cons, List.not_mem_nil, or_false] at hb
          rcases hb with rfl
          exact pk_id_ne_obj _ _ _
        · intro b hb
          simp at hb
      rw [firstDedup_eq_self _ hnd]
      exact ⟨rfl, hnd⟩
    · rw [if_neg hok, if_neg hok]
      have hlist : (([] : List Str)
          ++ ["pkcs11:id=".data ++ encodeAsciiPercent (trimStr objectId)
            ++ ";type=private".data
            ++ (if pin ≠ [] then ";pin-value=".data ++ encodeURIComponent pin else [])]
          ++ ["pkcs11:slot-id=0;object=".data
            ++ encodeURIComponent (trimStr objectId) ++ ";type=private".data
            ++ (if pin ≠ [] then ";pin-value=".data ++ encodeURIComponent pin else [])])
          = ["pkcs11:id=".data ++ encodeAsciiPercent (trimStr objectId)
            ++ ";type=private".data
            ++ (if pin ≠ [] then ";pin-value=".data ++ encodeURIComponent pin else []),
           "pkcs11:slot-id=0;object=".data
            ++ encodeURIComponent (trimStr objectId) ++ ";type=private".data
            ++ (if pin ≠ [] then ";pin-value=".data ++ encodeURIComponent pin else [])] := by
        simp
      rw [hlist]
      have hnd : List.Nodup ["pkcs11:id=".data
            ++ encodeAsciiPercent (trimStr objectId) ++ ";type=private".data
            ++ (if pin ≠ [] then ";pin-value=".data ++ encodeURIComponent pin else []),
           "pkcs11:slot-id=0;object=".data
            ++ encodeURIComponent (trimStr objectId) ++ ";type=private".data
            ++ (if pin ≠ [] then ";pin-value=".data ++ encodeURIComponent pin else [])] := by
        refine List.Pairwise.cons ?_ (List.Pairwise.cons ?_ List.Pairwise.nil)
        · intro b hb
          simp only [List.mem_cons, List.not_mem_nil, or_false] at hb
          rcases hb with rfl
          exact pk_id_ne_obj _ _ _
        · intro b hb
          simp at hb
      rw [firstDedup_eq_self _ hnd]
      exact ⟨rfl, hnd⟩

theorem provUris_nodup (keyId pin tokenLbl modPath : Str) (slotRaw : Option Str) :
    (provUris keyId pin tokenLbl modPath slotRaw).Nodup := by
  unfold provUris
  cases hhex : encodeHexPercentIfValid keyId with
  | none =>
    simp only [hhex, List.cons_append, List.nil_append]
    refine List.Pairwise.cons ?_ (List.Pairwise.cons ?_ (List.Pairwise.cons ?_
      (List.Pairwise.cons ?_ (List.Pairwise.cons ?_
      (List.Pairwise.cons ?_ List.Pairwise.nil)))))
    · intro b hb
      simp only [List.mem_cons, List.not_mem_nil, or_false] at hb
      rcases hb with rfl | rfl | rfl | rfl | rfl
      exacts [slot_ne_tok _ _ _ _, slot_ne_mod _ _ _ _,
        fun h => restIdPin_ne_restObjPin _ _ _ _ (provSlotU_inj _ _ _ h),
        slot_ne_tok _ _ _ _, slot_ne_mod _ _ _ _]
    · intro b hb
      simp only [List.mem_cons, List.not_mem_nil, or_false] at hb
      rcases hb with rfl | rfl | rfl | rfl
      exacts [tok_ne_mod _ _ _ _, fun h => slot_ne_tok _ _ _ _ h.symm,
        fun h => restIdPin_ne_restObjPin _ _ _ _ (provTokU_inj _ _ _ h),
        tok_ne_mod _ _ _ _]
    · intro b hb
      simp only [List.mem_cons, List.not_mem_nil, or_false] at hb
      rcases hb with rfl | rfl | rfl
      exacts [fun h => slot_ne_mod _ _ _ _ h.symm,
        fun h => tok_ne_mod _ _ _ _ h.symm,
        fun h => restIdPin_ne_restObjPin _ _ _ _ (provModU_inj _ _ _ h)]
    · intro b hb
      simp only [List.mem_cons, List.not_mem_nil, or_false] at hb
      rcases hb with rfl | rfl
      exacts [slot_ne_tok _ _ _ _, slot_ne_mod _ _ _ _]
    · intro b hb
      simp only [List.mem_cons, List.not_mem_nil, or_false] at hb
      rcases hb with rfl
      exact tok_ne_mod _ _ _ _
    · intro b hb
      simp at hb
  | some encHex =>
    obtain ⟨hok, hdef⟩ := hexOK_of_encodeHex _ _ hhex
    have hlt : encHex.length < (encodeAsciiPercent keyId).length := by
      obtain ⟨_, hlen2, heven⟩ := hexOKB_spec _ hok
      have h1 : encHex.length = 3 * ((trimStr keyId).length / 2) := by
        rw [hdef, List.length_map, hexPairsPercent_length _ heven]
      have h2 := encodeAsciiPercent_length_ge keyId
      have h3 := trimStr_length_le keyId
      omega
    have hne : encHex.length ≠ (encodeAsciiPercent keyId).length := Nat.ne_of_lt hlt
    have hle : encHex.length ≤ (encodeAsciiPercent keyId).length := Nat.le_of_lt hlt
    simp only [hhex, List.cons_append, List.nil_append]
    refine List.Pairwise.cons ?_ (List.Pairwise.cons ?_ (List.Pairwise.cons ?_
      (List.Pairwise.cons ?_ (List.Pairwise.cons ?_ (List.Pairwise.cons ?_
      (List.Pairwise.cons ?_ (List.Pairwise.cons ?_ (List.Pairwise.cons ?_
      (List.Pairwise.cons ?_ (List.Pairwise.cons ?_
      (List.Pairwise.cons ?_ List.Pairwise.nil)))))))))))
    · intro b hb
      simp only [List.mem_cons, List.not_mem_nil, or_false] at hb
      rcases hb with rfl | rfl | rfl | rfl | rfl | rfl | rfl | rfl | rfl | rfl | rfl
      exacts [fun h => restIdPin_ne_restId _ _ _ (Nat.le_refl _) (provSlotU_inj _ _ _ h),
        slot_ne_tok _ _ _ _, slot_ne_tok _ _ _ _,
        slot_ne_mod _ _ _ _, slot_ne_mod _ _ _ _,
        fun h => restIdPin_ne_len _ _ _ hne (provSlotU_inj _ _ _ h),
        slot_ne_tok _ _ _ _, slot_ne_mod _ _ _ _,
        fun h => restIdPin_ne_restObjPin _ _ _ _ (provSlotU_inj _ _ _ h),
        slot_ne_tok _ _ _ _, slot_ne_mod _ _ _ _]
    · intro b hb
      simp only [List.mem_cons, List.not_mem_nil, or_false] at hb
      rcases hb with rfl | rfl | rfl | rfl | rfl | rfl | rfl | rfl | rfl | rfl
      exacts [slot_ne_tok _ _ _ _, slot_ne_tok _ _ _ _,
        slot_ne_mod _ _ _ _, slot_ne_mod _ _ _ _,
        fun h => restIdPin_ne_restId _ _ _ hle (provSlotU_inj _ _ _ h).symm,
        slot_ne_tok _ _ _ _, slot_ne_mod _ _ _ _,
        fun h => restId_ne_restObjPin _ _ _ (provSlotU_inj _ _ _ h),
        slot_ne_tok _ _ _ _, slot_ne_mod _ _ _ _]
    · intro b hb
      simp only [List.mem_cons, List.not_mem_nil, or_false] at hb
      rcases hb with rfl | rfl | rfl | rfl | rfl | rfl | rfl | rfl | rfl
      exacts [fun h => restIdPin_ne_restId _ _ _ (Nat.le_refl _) (provTokU_inj _ _ _ h),
        tok_ne_mod _ _ _ _, tok_ne_mod _ _ _ _,
        fun h => slot_ne_tok _ _ _ _ h.symm,
        fun h => restIdPin_ne_len _ _ _ hne (provTokU_inj _ _ _ h),
        tok_ne_mod _ _ _ _,
        fun h => slot_ne_tok _ _ _ _ h.symm,
        fun h => restIdPin_ne_restObjPin _ _ _ _ (provTokU_inj _ _ _ h),
        tok_ne_mod _ _ _ _]
    · intro b hb
      simp only [List.mem_cons, List.not_mem_nil, or_false] at hb
      rcases hb with rfl | rfl | rfl | rfl | rfl | rfl | rfl | rfl
      exacts [tok_ne_mod _ _ _ _, tok_ne_mod _ _ _ _,
        fun h => slot_ne_tok _ _ _ _ h.symm,
        fun h => restIdPin_ne_restId _ _ _ hle (provTokU_inj _ _ _ h).symm,
        tok_ne_mod _ _ _ _,
        fun h => slot_ne_tok _ _ _ _ h.symm,
        fun h => restId_ne_restObjPin _ _ _ (provTokU_inj _ _ _ h),
        tok_ne_mod _ _ _ _]
    · intro b hb
      simp only [List.mem_cons, List.not_mem_nil, or_false] at hb
      rcases hb with rfl | rfl | rfl | rfl | rfl | rfl | rfl
      exacts [fun h => restIdPin_ne_restId _ _ _ (Nat.le_refl _) (provModU_inj _ _ _ h),
        fun h => slot_ne_mod _ _ _ _ h.symm,
        fun h => tok_ne_mod _ _ _ _ h.symm,
        fun h => restIdPin_ne_len _ _ _ hne (provModU_inj _ _ _ h),
        fun h => slot_ne_mod _ _ _ _ h.symm,
        fun h => tok_ne_mod _ _ _ _ h.symm,
        fun h => restIdPin_ne_restObjPin _ _ _ _ (provModU_inj _ _ _ h)]
    · intro b hb
      simp only [List.mem_cons, List.not_mem_nil, or_false] at hb
      rcases hb with rfl | rfl | rfl | rfl | rfl | rfl
      exacts [fun h => slot_ne_mod _ _ _ _ h.symm,
        fun h => tok_ne_mod _ _ _ _ h.symm,
        fun h => restIdPin_ne_restId _ _ _ hle (provModU_inj _ _ _ h).symm,
        fun h => slot_ne_mod _ _ _ _ h.symm,
        fun h => tok_ne_mod _ _ _ _ h.symm,
        fun h => restId_ne_restObjPin _ _ _ (provModU_inj _ _ _ h)]
    · intro b hb
      simp only [List.mem_cons, List.not_mem_nil, or_false] at hb
      rcases hb with rfl | rfl | rfl | rfl | rfl
      exacts [slot_ne_tok _ _ _ _, slot_ne_mod _ _ _ _,
        fun h => restIdPin_ne_restObjPin _ _ _ _ (provSlotU_inj _ _ _ h),
        slot_ne_tok _ _ _ _, slot_ne_mod _ _ _ _]
    · intro b hb
      simp only [List.mem_cons, List.not_mem_nil, or_false] at hb
      rcases hb with rfl | rfl | rfl | rfl
      exacts [tok_ne_mod _ _ _ _, fun h => slot_ne_tok _ _ _ _ h.symm,
        fun h => restIdPin_ne_restObjPin _ _ _ _ (provTokU_inj _ _ _ h),
        tok_ne_mod _ _ _ _]
    · intro b hb
      simp only [List.mem_cons, List.not_mem_nil, or_false] at hb
      rcases hb with rfl | rfl | rfl
      exacts [fun h => slot_ne_mod _ _ _ _ h.symm,
        fun h => tok_ne_mod _ _ _ _ h.symm,
        fun h => restIdPin_ne_restObjPin _ _ _ _ (provModU_inj _ _ _ h)]
    · intro b hb
      simp only [List.mem_cons, List.not_mem_nil, or_false] at hb
      rcases hb with rfl | rfl
      exacts [slot_ne_tok _ _ _ _, slot_ne_mod _ _ _ _]
    · intro b hb
      simp only [List.mem_cons, List.not_mem_nil, or_false] at hb
      rcases hb with rfl
      exact tok_ne_mod _ _ _ _
    · intro b hb
      simp at hb

/-- C6: the resolved candidate lists are deterministic values of the key
identifier and fixed configuration; pkcs11KeyUris is exactly the ordered
hex-id, ASCII-id, object list with the hex shape present only when the
trimmed id matches the hex-pair test, and it contains no duplicates; and
the provider candidate list provUris of the issuance handler is
duplicate-free in first-occurrence order, places its hex shapes (present
exactly when the hex-pair test succeeds) before the ASCII shapes before
the object shapes. -/
theorem claim_C6_candidate_lists (objectId pin keyId pin2 tokenLbl modPath : Str)
    (slotRaw : Option Str) :
    (pkcs11KeyUris objectId pin =
      (if trimStr objectId = [] then []
       else if hexOKB (trimStr objectId) then
        ["pkcs11:id=".data ++ (hexPairsPercent (trimStr objectId)).map Char.toUpper
            ++ ";type=private".data
            ++ (if pin ≠ [] then ";pin-value=".data ++ encodeURIComponent pin else []),
         "pkcs11:id=".data ++ encodeAsciiPercent (trimStr objectId)
            ++ ";type=private".data
            ++ (if pin ≠ [] then ";pin-value=".data ++ encodeURIComponent pin else []),
         "pkcs11:slot-id=0;object=".data ++ encodeURIComponent (trimStr objectId)
            ++ ";type=private".data
            ++ (if pin ≠ [] then ";pin-value=".data ++ encodeURIComponent pin else [])]
       else
        ["pkcs11:id=".data ++ encodeAsciiPercent (trimStr objectId)
            ++ ";type=private".data
            ++ (if pin ≠ [] then ";pin-value=".data ++ encodeURIComponent pin else []),
         "pkcs11:slot-id=0;object=".data ++ encodeURIComponent (trimStr objectId)
            ++ ";type=private".data
            ++ (if pin ≠ [] then ";pin-value=".data ++ encodeURIComponent pin else [])]))
    ∧ (pkcs11KeyUris objectId pin).Nodup
    ∧ (provUris keyId pin2 tokenLbl modPath slotRaw).Nodup
    ∧ (hexOKB (trimStr keyId) = false →
        provUris keyId pin2 tokenLbl modPath slotRaw =
          [provSlotU (getSlotId slotRaw)
              (restIdPin (encodeAsciiPercent keyId) (encodeURIComponent pin2)),
           provTokU (encodeURIComponent tokenLbl)
              (restIdPin (encodeAsciiPercent keyId) (encodeURIComponent pin2)),
           provModU (encodeURIComponent modPath)
              (restIdPin (encodeAsciiPercent keyId) (encodeURIComponent pin2)),
           provSlotU (getSlotId slotRaw)
              (restObjPin (encodeURIComponent keyId) (encodeURIComponent pin2)),
           provTokU (encodeURIComponent tokenLbl)
              (restObjPin (encodeURIComponent keyId) (encodeURIComponent pin2)),
           provModU (encodeURIComponent modPath)
              (restObjPin (encodeURIComponent keyId) (encodeURIComponent pin2))])
    ∧ (∀ hp, encodeHexPercentIfValid keyId = some hp →
        hexOKB (trimStr keyId) = true) := by
  refine ⟨(pkcs11KeyUris_spec objectId pin).1, (pkcs11KeyUris_spec objectId pin).2,
    provUris_nodup keyId pin2 tokenLbl modPath slotRaw, ?_, ?_⟩
  · intro hfalse
    unfold provUris
    have hnone : encodeHexPercentIfValid keyId = none := by
      unfold encodeHexPercentIfValid
      rw [if_neg (by simp [hfalse])]
    simp only [hnone, List.cons_append, List.nil_append]
  · intro hp hhp
    exact (hexOK_of_encodeHex _ _ hhp).1

/-- C6 witness: the id 01 passes the hex-pair test, and for the non-hex id
zz the provider list is exactly the six ASCII and object shapes. -/
theorem claim_C6_witness :
    hexOKB (trimStr "01".data) = true
    ∧ provUris "zz".data "1234".data "T".data "m".data none =
        [provSlotU (getSlotId none)
            (restIdPin (encodeAsciiPercent "zz".data) (encodeURIComponent "1234".data)),
         provTokU (encodeURIComponent "T".data)
            (restIdPin (encodeAsciiPercent "zz".data) (encodeURIComponent "1234".data)),
         provModU (encodeURIComponent "m".data)
            (restIdPin (encodeAsciiPercent "zz".data) (encodeURIComponent "1234".data)),
         provSlotU (getSlotId none)
            (restObjPin (encodeURIComponent "zz".data) (encodeURIComponent "1234".data)),
         provTokU (encodeURIComponent "T".data)
            (restObjPin (encodeURIComponent "zz".data) (encodeURIComponent "1234".data)),
         provModU (encodeURIComponent "m".data)
            (restObjPin (encodeURIComponent "zz".data) (encodeURIComponent "1234".data))] :=
  ⟨(claim_C6_candidate_lists "a".data [] "01".data "1234".data "T".data "m".data
      none).2.2.2.2 "%01".data (by decide),
   (claim_C6_candidate_lists "a".data [] "zz".data "1234".data "T".data "m".data
      none).2.2.2.1 (by decide)⟩
